import Mathlib

/-!
Verification of the minni data-access layer: a shallow embedding of the
permission guard (`src/src/helpers.ts`), the memory tool (find / save /
update / delete), the project tool (list / update / delete), the task tool
(create / delete with cascade), and the schema initialization
(`src/src/init.ts`), together with proofs of the spec's testable
properties over that embedding.

State is modelled explicitly: the SQLite file becomes a `DBState` record of
row lists, every handler becomes a pure function `DBState → DBState × …`,
and the asynchronous confirmation callback becomes a boolean decision
passed in.  Machine integers (row ids, millisecond timestamps) are `Nat`:
the source never exercises overflow.
-/

namespace Minni

/-- Permission levels, from the schema base module:
`PERMISSION = ["open", "guarded", "read_only", "locked"]`. -/
inductive Permission where
  | «open»
  | guarded
  | read_only
  | locked
deriving Repr, DecidableEq

/-- The storage string of a permission level. -/
def Permission.toStr : Permission → String
  | .«open» => "open"
  | .guarded => "guarded"
  | .read_only => "read_only"
  | .locked => "locked"

/-- Parses a storage string back into a permission level. -/
def Permission.ofStr? : String → Option Permission
  | "open" => some .«open»
  | "guarded" => some .guarded
  | "read_only" => some .read_only
  | "locked" => some .locked
  | _ => none

/-- `PERMISSION` from the schema base module. -/
def PERMISSION : List String := ["open", "guarded", "read_only", "locked"]

/-- `MEMORY_TYPE` of the current schema generation: the fourteen memory
types accepted by the memory tool's `type` argument. -/
def MEMORY_TYPE : List String :=
  ["skill", "pattern", "anti_pattern", "decision", "insight", "comparison",
   "note", "link", "article", "video", "documentation", "identity",
   "context", "scratchpad"]

/-- `MEMORY_STATUS` from the schema base module. -/
def MEMORY_STATUS : List String :=
  ["draft", "experimental", "proven", "battle_tested", "deprecated"]

/-- `WRITABLE_PROJECT_STATUS`: the project statuses a caller may set
(soft-deletion's "deleted" is excluded). -/
def WRITABLE_PROJECT_STATUS : List String :=
  ["active", "paused", "completed", "archived"]

/-- Task priorities accepted by the task tool. -/
def TASK_PRIORITIES : List String := ["high", "medium", "low"]

/-- Task statuses accepted by the task tool. -/
def TASK_STATUSES : List String := ["todo", "in_progress", "done", "cancelled"]

/-- A row of the `projects` table (current generation DDL in
`initializeDatabase`).  `contextSummary` is the legacy `context_summary`
column; it exists only on stores whose `projects` table predates the
current generation (see `DBState.hasProjectSummaryCol`). -/
structure ProjectRow where
  id : Nat
  name : String
  description : Option String := none
  stack : Option String := none
  status : String := "active"
  permission : Permission := .guarded
  defaultMemoryPermission : Permission := .guarded
  contextSummary : Option String := none
  createdAt : Nat := 0
  updatedAt : Nat := 0
deriving Repr, DecidableEq

/-- A row of the `memories` table (current generation DDL: no `path`
column; the legacy `memory_paths` table is dropped by
`initializeDatabase`). -/
structure MemoryRow where
  id : Nat
  projectId : Option Nat := none
  type : String
  title : String
  content : String
  status : String := "draft"
  permission : Permission := .guarded
  createdAt : Nat := 0
  updatedAt : Nat := 0
deriving Repr, DecidableEq

/-- A row of the `tasks` table. -/
structure TaskRow where
  id : Nat
  projectId : Option Nat := none
  parentId : Option Nat := none
  title : String
  description : Option String := none
  priority : String := "medium"
  status : String := "todo"
  createdAt : Nat := 0
  updatedAt : Nat := 0
deriving Repr, DecidableEq

/-- The outcome of `JSON.parse` on the legacy `preferences` column, as the
migration consumes it: the three field paths
`memory.defaultPermission`, `planning.autoCreateTasks`,
`search.defaultLimit`, each already rendered through `String(value)`.
A field the JSON does not carry is `none`. -/
structure PrefsFields where
  defaultPermission : Option String := none
  autoCreateTasks : Option String := none
  searchDefaultLimit : Option String := none
deriving Repr, DecidableEq

/-- The singleton `global_context` row (id = 1).  `identity`,
`preferences` and `contextSummary` are the legacy columns that only exist
when `DBState.hasLegacyGlobalCols` is set.  The `preferences` column is
abstracted to its parse outcome: `none` = SQL NULL or empty string (both
skipped by the migration), `some none` = a string `JSON.parse` rejects,
`some (some f)` = a string parsing to an object with fields `f`. -/
structure GlobalCtxRow where
  activeProjectId : Option Nat := none
  activeIdentityId : Option Nat := none
  identity : Option String := none
  preferences : Option (Option PrefsFields) := none
  contextSummary : Option String := none
  createdAt : Nat := 0
  updatedAt : Nat := 0
deriving Repr, DecidableEq

/-- The whole store.  Row lists model table contents; `next…Id` models the
AUTOINCREMENT counter.  The `has…Table` / `has…Col` booleans model the
structural introspection the Schema Manager relies on: which tables and
generation-dependent columns currently exist. -/
structure DBState where
  hasProjectsTable : Bool := true
  hasMemoriesTable : Bool := true
  hasGlobalCtxTable : Bool := true
  hasTasksTable : Bool := true
  hasTagsTable : Bool := true
  hasMemoryTagsTable : Bool := true
  hasSettingsTable : Bool := true
  hasMemoryRelationsTable : Bool := true
  projects : List ProjectRow := []
  memories : List MemoryRow := []
  nextMemoryId : Nat := 1
  tasks : List TaskRow := []
  nextTaskId : Nat := 1
  tags : List (Nat × String) := []
  nextTagId : Nat := 1
  memoryTags : List (Nat × Nat) := []
  memoryRelations : List (Nat × Nat) := []
  settings : List (String × String) := []
  globalCtx : Option GlobalCtxRow := none
  hasLegacyGlobalCols : Bool := false
  hasActiveIdentityCol : Bool := true
  hasTasksParentCol : Bool := true
  hasProjectSummaryCol : Bool := false
  hasMemoryPathsTable : Bool := false
  hasMilestonesTable : Bool := false
  hasGoalsTable : Bool := false
  indexes : List String := []
deriving Repr, DecidableEq

/-- `getSetting`: reads a setting row, `null` when the key is absent. -/
def getSetting (db : DBState) (key : String) : Option String :=
  (db.settings.find? (fun kv => kv.1 == key)).map (fun kv => kv.2)

/-- `getActiveProject`: the project the `global_context` pointer names, or
`null` when the pointer is unset or dangling. -/
def getActiveProject (db : DBState) : Option (Nat × String) :=
  match db.globalCtx with
  | none => none
  | some ctx =>
    match ctx.activeProjectId with
    | none => none
    | some pid => (db.projects.find? (fun p => p.id == pid)).map (fun p => (p.id, p.name))

/-- `setActiveProject`: persists the pointer on the singleton row. -/
def setActiveProject (db : DBState) (proj : Option (Nat × String)) (now : Nat) : DBState :=
  { db with globalCtx := db.globalCtx.map (fun c =>
      { c with activeProjectId := proj.map (fun p => p.1), updatedAt := now }) }

/-- Collapses runs of hyphens to a single hyphen (the `-+` replace of
`normalizeProjectName`). -/
def collapseHyphens (cs : List Char) : List Char :=
  cs.foldr (fun c acc => if c = '-' ∧ acc.head? = some '-' then acc else c :: acc) []

/-- ASCII whitespace characters standing in for the `\s` class. -/
def isWsChar (c : Char) : Bool :=
  c = ' ' ∨ c = '\t' ∨ c = '\n' ∨ c = '\r' ∨ c = '\x0b' ∨ c = '\x0c'

/-- ASCII lowercasing of one character (`toLowerCase` on the repertoire the
source exercises). -/
def lowChar (c : Char) : Char :=
  if 'A' ≤ c ∧ c ≤ 'Z' then Char.ofNat (c.toNat + 32) else c

/-- ASCII uppercasing of one character (`toUpperCase`). -/
def upChar (c : Char) : Char :=
  if 'a' ≤ c ∧ c ≤ 'z' then Char.ofNat (c.toNat - 32) else c

/-- `String.prototype.toLowerCase`. -/
def lowerStr (s : String) : String := String.mk (s.toList.map lowChar)

/-- `String.prototype.toUpperCase`. -/
def upperStr (s : String) : String := String.mk (s.toList.map upChar)

/-- `String.prototype.trim`. -/
def trimStr (s : String) : String :=
  String.mk (((s.toList.dropWhile isWsChar).reverse.dropWhile isWsChar).reverse)

/-- `normalizeProjectName`: lowercase, trim, whitespace and underscores to
hyphens, strip anything not alphanumeric or hyphen, collapse runs of
hyphens and strip them at the ends. -/
def normalizeProjectName (name : String) : String :=
  let cs := (trimStr (lowerStr name)).toList
  let cs := cs.map (fun c => if isWsChar c ∨ c = '_' then '-' else c)
  let cs := cs.filter (fun c => ('a' ≤ c ∧ c ≤ 'z') ∨ ('0' ≤ c ∧ c ≤ '9') ∨ c = '-')
  let cs := collapseHyphens cs
  let cs := ((cs.dropWhile (fun c => c = '-')).reverse.dropWhile (fun c => c = '-')).reverse
  String.mk cs

/-- `resolveProject`: by (normalized) name when one is given (JS truthiness:
an empty string counts as no name), otherwise the active project. -/
def resolveProject (db : DBState) (name : Option String) : Option (Nat × String) :=
  if (name.getD "") ≠ "" then
    let normalized := normalizeProjectName (name.getD "")
    (db.projects.find? (fun p => p.name == normalized)).map (fun p => (p.id, p.name))
  else getActiveProject db

/-- `validateEnum`: `none` when the value is allowed, otherwise the error
message listing the accepted values. -/
def validateEnum (value : String) (allowed : List String) (fieldName : String) :
    Option String :=
  if allowed.contains value then none
  else some ("Invalid " ++ fieldName ++ ": \"" ++ value ++ "\". Allowed: "
    ++ String.intercalate ", " allowed)

/-- `saveTags` body for one tag name: normalize, `INSERT OR IGNORE` into
`tags`, then link through `memory_tags` with `onConflictDoNothing`. -/
def saveOneTag (db : DBState) (memoryId : Nat) (name : String) : DBState :=
  let normalized := trimStr (lowerStr name)
  let db :=
    if db.tags.any (fun t => t.2 == normalized) then db
    else { db with tags := db.tags ++ [(db.nextTagId, normalized)],
                   nextTagId := db.nextTagId + 1 }
  match db.tags.find? (fun t => t.2 == normalized) with
  | none => db
  | some t =>
    if db.memoryTags.contains (memoryId, t.1) then db
    else { db with memoryTags := db.memoryTags ++ [(memoryId, t.1)] }

/-- `saveTags`: persists the tag associations of a memory. -/
def saveTags (db : DBState) (memoryId : Nat) (tagNames : List String) : DBState :=
  tagNames.foldl (fun d n => saveOneTag d memoryId n) db

/-- An entity protected by the permission system (memories and projects;
tasks are always open). -/
structure ProtectedEntity where
  id : Nat
  name : String
  type : String
  permission : Permission
deriving Repr, DecidableEq

/-- The three actions the permission matrix distinguishes. -/
inductive ActionType where
  | read
  | update
  | delete
deriving Repr, DecidableEq

/-- The wire string of an action. -/
def ActionType.toStr : ActionType → String
  | .read => "read"
  | .update => "update"
  | .delete => "delete"

/-- What one `guardedAction` call did: the resulting store, whether the
confirmation callback (`context.ask`) was invoked, whether the wrapped
executor ran, and the returned `Result`. -/
structure GuardResult (α : Type) where
  db : DBState
  askInvoked : Bool
  executed : Bool
  out : Except String α
deriving Repr

/-- `guardedAction`: centralized permission enforcement.  The executor is
state-passing and may fail (a thrown error becomes `Except.error`); the
confirmation callback is the boolean `askAccepts` (false = the promise
rejected). -/
def guardedAction {α : Type} (db : DBState) (askAccepts : Bool)
    (entity : ProtectedEntity) (action : ActionType)
    (executor : DBState → DBState × Except String α) : GuardResult α :=
  let runExec : Bool → GuardResult α := fun invoked =>
    let p := executor db
    { db := p.1
      askInvoked := invoked
      executed := true
      out := match p.2 with
        | .ok v => .ok v
        | .error msg =>
          .error ("ERROR: Failed to " ++ action.toStr ++ " " ++ entity.type
            ++ " [" ++ toString entity.id ++ "]: " ++ msg) }
  if getSetting db "dangerously_skip_memory_permission" = some "true" then
    runExec false
  else if entity.permission = .locked then
    { db := db, askInvoked := false, executed := false
      out := .error ("BLOCKED: " ++ entity.type ++ " [" ++ toString entity.id
        ++ "] is locked. Use Minni to view its content.") }
  else if entity.permission = .read_only ∧ action ≠ .read then
    { db := db, askInvoked := false, executed := false
      out := .error ("BLOCKED: " ++ entity.type ++ " [" ++ toString entity.id
        ++ "] \"" ++ entity.name ++ "\" is read-only. Use Minni to view its content.") }
  else if entity.permission = .guarded ∧ action ≠ .read then
    if askAccepts then runExec true
    else
      { db := db, askInvoked := true, executed := false
        out := .error ("CANCELLED: User denied " ++ action.toStr ++ " on "
          ++ entity.type ++ " [" ++ toString entity.id ++ "] \""
          ++ entity.name ++ "\".") }
  else runExec false

/-- The cancellation message `guardedAction` returns when the confirmation
callback rejects. -/
def cancelledMsg (e : ProtectedEntity) (a : ActionType) : String :=
  "CANCELLED: User denied " ++ a.toStr ++ " on " ++ e.type ++ " ["
    ++ toString e.id ++ "] \"" ++ e.name ++ "\"."

/-- The blocking message `guardedAction` returns for a mutation of a
read-only entity. -/
def readOnlyMsg (e : ProtectedEntity) : String :=
  "BLOCKED: " ++ e.type ++ " [" ++ toString e.id ++ "] \"" ++ e.name
    ++ "\" is read-only. Use Minni to view its content."

/-- The bypass setting is inactive in `db`. -/
def BypassInactive (db : DBState) : Prop :=
  getSetting db "dangerously_skip_memory_permission" ≠ some "true"

instance (db : DBState) : Decidable (BypassInactive db) := by
  unfold BypassInactive; infer_instance

/-- C2: with the bypass setting inactive, the confirmation callback is
invoked exactly for guarded mutations (never for open, read-only or locked
entities, never for reads); a rejecting callback yields the cancellation
error with the executor never run and storage unchanged; an accepting
callback runs the executor. -/
theorem C2_guarded_confirmation {α : Type} (db : DBState) (ask : Bool)
    (e : ProtectedEntity) (a : ActionType)
    (exec : DBState → DBState × Except String α)
    (hb : BypassInactive db) :
    ((guardedAction db ask e a exec).askInvoked
        ↔ (e.permission = .guarded ∧ a ≠ .read))
    ∧ (e.permission = .guarded → a ≠ .read → ask = false →
        (guardedAction db ask e a exec).executed = false
        ∧ (guardedAction db ask e a exec).db = db
        ∧ (guardedAction db ask e a exec).out = .error (cancelledMsg e a))
    ∧ (e.permission = .guarded → a ≠ .read → ask = true →
        (guardedAction db ask e a exec).executed = true
        ∧ (guardedAction db ask e a exec).db = (exec db).1) := by
  unfold BypassInactive at hb
  obtain ⟨i, n, t, p⟩ := e
  cases p <;> cases a <;> cases ask <;>
    simp [guardedAction, hb, cancelledMsg, ActionType.toStr]

/-- Witness store for the guard theorems: empty, bypass not configured. -/
def dbW : DBState := {}

/-- Witness executor: succeeds, leaves the store unchanged. -/
def execW : DBState → DBState × Except String String := fun d => (d, .ok "done")

/-- Witness entity for C2: a guarded memory. -/
def eGuardedW : ProtectedEntity := { id := 1, name := "m", type := "memory", permission := .guarded }

/-- C2 witness: the policy theorem applied to a guarded update on an empty
store with a rejecting callback. -/
theorem C2_guarded_confirmation_witness :
    ((guardedAction dbW false eGuardedW .update execW).askInvoked
        ↔ (eGuardedW.permission = .guarded ∧ ActionType.update ≠ .read))
    ∧ (eGuardedW.permission = .guarded → ActionType.update ≠ .read → false = false →
        (guardedAction dbW false eGuardedW .update execW).executed = false
        ∧ (guardedAction dbW false eGuardedW .update execW).db = dbW
        ∧ (guardedAction dbW false eGuardedW .update execW).out
            = .error (cancelledMsg eGuardedW .update))
    ∧ (eGuardedW.permission = .guarded → ActionType.update ≠ .read → false = true →
        (guardedAction dbW false eGuardedW .update execW).executed = true
        ∧ (guardedAction dbW false eGuardedW .update execW).db = (execW dbW).1) :=
  C2_guarded_confirmation dbW false eGuardedW .update execW (by decide)

/-- C4: with the bypass setting inactive, a mutation (update or delete) of
a read-only entity is blocked: the result is the blocking error, the
executor never runs, the confirmation callback is not consulted and the
store is unchanged. -/
theorem C4_read_only_blocked {α : Type} (db : DBState) (ask : Bool)
    (e : ProtectedEntity) (a : ActionType)
    (exec : DBState → DBState × Except String α)
    (hb : BypassInactive db) (hp : e.permission = .read_only) (ha : a ≠ .read) :
    (guardedAction db ask e a exec).executed = false
    ∧ (guardedAction db ask e a exec).db = db
    ∧ (guardedAction db ask e a exec).askInvoked = false
    ∧ (guardedAction db ask e a exec).out = .error (readOnlyMsg e) := by
  unfold BypassInactive at hb
  obtain ⟨i, n, t, p⟩ := e
  cases p <;> simp_all [guardedAction, readOnlyMsg]

/-- Witness entity for C4: a read-only memory. -/
def eReadOnlyW : ProtectedEntity := { id := 2, name := "r", type := "memory", permission := .read_only }

/-- C4 witness: the read-only theorem applied to a delete on an empty
store. -/
theorem C4_read_only_blocked_witness :
    (guardedAction dbW true eReadOnlyW .delete execW).executed = false
    ∧ (guardedAction dbW true eReadOnlyW .delete execW).db = dbW
    ∧ (guardedAction dbW true eReadOnlyW .delete execW).askInvoked = false
    ∧ (guardedAction dbW true eReadOnlyW .delete execW).out
        = .error (readOnlyMsg eReadOnlyW) :=
  C4_read_only_blocked dbW true eReadOnlyW .delete execW (by decide) (by decide) (by decide)

/-- The tag names linked to a memory through `memory_tags` (the LEFT JOIN
`memory_tags` / `tags` of `handleFind`, and `resolveTags` of the equip
tool). -/
def tagNamesOf (db : DBState) (memId : Nat) : List String :=
  (db.memoryTags.filter (fun mt => mt.1 == memId)).filterMap
    (fun mt => (db.tags.find? (fun t => t.1 == mt.2)).map (fun t => t.2))

/-- Whether `needle` occurs contiguously inside `haystack`. -/
def containsSub (needle : List Char) : List Char → Bool
  | [] => needle.isEmpty
  | c :: rest => needle.isPrefixOf (c :: rest) || containsSub needle rest

/-- The `LIKE '%…%' ESCAPE '\'` match of `handleFind`: the query's `%` and
`_` are escaped first, so the pattern matches exactly the rows containing
the query text literally, case-insensitively. -/
def likeContains (query text : String) : Bool :=
  containsSub (lowerStr query).toList (lowerStr text).toList

/-- The row predicate of `searchMemories`'s query branch: title LIKE,
content LIKE, or an exact tag-name match on the normalized query. -/
def memMatchesQuery (db : DBState) (query : String) (m : MemoryRow) : Bool :=
  likeContains query m.title || likeContains query m.content
    || (tagNamesOf db m.id).contains (trimStr (lowerStr query))

/-- The three scope conditions `handleFind` instantiates `searchMemories`
with: no condition, `m.project_id = ?`, and
`(m.project_id IS NULL OR m.project_id != ?)`. -/
inductive ScopeCond where
  | all
  | inProject (pid : Nat)
  | notProject (pid : Nat)
deriving Repr, DecidableEq

/-- SQL evaluation of a scope condition on a row's `project_id`. -/
def scopeHolds : ScopeCond → Option Nat → Bool
  | .all, _ => true
  | .inProject pid, some p => p == pid
  | .inProject _, none => false
  | .notProject pid, some p => p != pid
  | .notProject _, none => true

/-- The full WHERE clause of `searchMemories` (both branches share it; the
query disjunction only applies when a query is present — JS truthiness, so
an empty string counts as no query, and likewise for the type filter). -/
def memPred (db : DBState) (query t : Option String) (scope : ScopeCond)
    (m : MemoryRow) : Bool :=
  m.permission != Permission.locked
  && scopeHolds scope m.projectId
  && (if (t.getD "") ≠ "" then m.type == t.getD "" else true)
  && (if (query.getD "") ≠ "" then memMatchesQuery db (query.getD "") m else true)

/-- `parseInt(s, 10)`: skip leading whitespace, optional sign, longest
digit prefix; `none` models NaN. -/
def parseInt10 (s : String) : Option Int :=
  let cs := s.toList.dropWhile isWsChar
  let signed : Int × List Char :=
    match cs with
    | '-' :: rest => (-1, rest)
    | '+' :: rest => (1, rest)
    | _ => (1, cs)
  let ds := signed.2.takeWhile Char.isDigit
  if ds.isEmpty then none
  else some (signed.1 * (ds.foldl (fun acc c => acc * 10 + (c.toNat - 48)) (0 : Nat) : Nat))

/-- The result cap of `handleFind`: the `search_default_limit` setting
parsed with `parseInt`, 20 when the setting is absent.  (A setting that
parses to NaN makes the SQL fail; that corner is modelled as the seeded
default and excluded from the theorems by `LimitOk`.) -/
def searchLimit (db : DBState) : Int :=
  match getSetting db "search_default_limit" with
  | none => 20
  | some s => (parseInt10 s).getD 20

/-- SQL `LIMIT`: a negative limit means no limit. -/
def applyLimit {α : Type} (i : Int) (l : List α) : List α :=
  if i < 0 then l else l.take i.toNat

/-- `ORDER BY m.updated_at DESC`, viewed as a relation on memory rows. -/
def memRecentGE (a b : MemoryRow) : Prop := b.updatedAt ≤ a.updatedAt

instance : DecidableRel memRecentGE := fun a b => by unfold memRecentGE; infer_instance

instance : IsTotal MemoryRow memRecentGE :=
  ⟨fun a b => le_total b.updatedAt a.updatedAt⟩

instance : IsTrans MemoryRow memRecentGE :=
  ⟨fun _ _ _ h1 h2 => le_trans h2 h1⟩

/-- `ORDER BY updated_at DESC` on project rows (`handleList`). -/
def projRecentGE (a b : ProjectRow) : Prop := b.updatedAt ≤ a.updatedAt

instance : DecidableRel projRecentGE := fun a b => by unfold projRecentGE; infer_instance

instance : IsTotal ProjectRow projRecentGE :=
  ⟨fun a b => le_total b.updatedAt a.updatedAt⟩

instance : IsTrans ProjectRow projRecentGE :=
  ⟨fun _ _ _ h1 h2 => le_trans h2 h1⟩

/-- The row shape `handleFind` selects:
`id, type, title, status, project_id, project_name`. -/
structure FoundRow where
  id : Nat
  type : String
  title : String
  status : String
  projectId : Option Nat
  projectName : Option String
deriving Repr, DecidableEq

/-- Projects a memory row to the selected columns, resolving the owning
project's name through the LEFT JOIN. -/
def toFoundRow (db : DBState) (m : MemoryRow) : FoundRow :=
  { id := m.id, type := m.type, title := m.title, status := m.status
    projectId := m.projectId
    projectName := m.projectId.bind (fun pid =>
      (db.projects.find? (fun p => p.id == pid)).map (fun p => p.name)) }

/-- `searchMemories` before projection: filter by the WHERE clause, sort
most-recently-updated first, apply the limit. -/
def searchMemoriesRows (db : DBState) (query t : Option String) (scope : ScopeCond) :
    List MemoryRow :=
  applyLimit (searchLimit db)
    (List.insertionSort memRecentGE (db.memories.filter (memPred db query t scope)))

/-- `searchMemories`: one scan of the store under a scope condition. -/
def searchMemories (db : DBState) (query t : Option String) (scope : ScopeCond) :
    List FoundRow :=
  (searchMemoriesRows db query t scope).map (toFoundRow db)

/-- The group key of a fallback row: owning project name, `"Global"` for
unscoped rows (`m.project_name ?? "Global"`). -/
def rowKey (r : FoundRow) : String := r.projectName.getD "Global"

/-- Keys in first-occurrence order (JS `Map` insertion order), with an
accumulator of keys already taken. -/
def firstDedupAux : List String → List String → List String
  | [], _ => []
  | k :: ks, seen =>
    if seen.contains k then firstDedupAux ks seen
    else k :: firstDedupAux ks (k :: seen)

/-- Keys in first-occurrence order (JS `Map` insertion order). -/
def firstDedup (l : List String) : List String := firstDedupAux l []

/-- The comparator sorting fallback group keys: named projects
alphabetically, `"Global"` last.  (`localeCompare` is modelled as
lexicographic string order.) -/
def netherKeyLE (a b : String) : Prop :=
  if b = "Global" then True else if a = "Global" then False else a ≤ b

instance : DecidableRel netherKeyLE := fun a b => by unfold netherKeyLE; infer_instance

instance : IsTotal String netherKeyLE := by
  constructor
  intro a b
  by_cases hb : b = "Global" <;> by_cases ha : a = "Global" <;>
    simp [netherKeyLE, ha, hb, le_total]

instance : IsTrans String netherKeyLE := by
  constructor
  intro a b c hab hbc
  by_cases hc : c = "Global"
  · simp [netherKeyLE, hc]
  · by_cases hb : b = "Global"
    · simp [netherKeyLE, hb, hc] at hbc
    · by_cases ha : a = "Global"
      · simp [netherKeyLE, ha, hb] at hab
      · simp [netherKeyLE, ha, hb, hc] at *
        exact le_trans hab hbc

/-- The fallback grouping of `handleFind`: rows keyed by owning project
name in insertion order, keys then sorted named-first/Global-last, each
group keeping the scan order of its rows. -/
def groupNether (rows : List FoundRow) : List (String × List FoundRow) :=
  let keys := List.insertionSort netherKeyLE (firstDedup (rows.map rowKey))
  keys.map (fun k => (k, rows.filter (fun r => rowKey r == k)))

/-- The structured result of `handleFind`: a single listing in global
mode, or the in-scope rows followed by the grouped fallback rows when a
project is active. -/
inductive FindOut where
  | global (rows : List FoundRow)
  | scoped (pid : Nat) (projName : String) (inProj : List FoundRow)
      (groups : List (String × List FoundRow))
deriving Repr, DecidableEq

/-- `handleFind` of the memory tool. -/
def handleFind (db : DBState) (query t : Option String) : FindOut :=
  match getActiveProject db with
  | none => .global (searchMemories db query t .all)
  | some (pid, pname) =>
    let projectResults := searchMemories db query t (.inProject pid)
    let netherResults := searchMemories db query t (.notProject pid)
    .scoped pid pname projectResults
      (if netherResults.isEmpty then [] else groupNether netherResults)

/-- `beaconTag`: normalizes a title for beacon markers (like
`normalizeProjectName` but only whitespace maps to hyphens). -/
def beaconTag (title : String) : String :=
  let cs := (trimStr (lowerStr title)).toList
  let cs := cs.map (fun c => if isWsChar c then '-' else c)
  let cs := cs.filter (fun c => ('a' ≤ c ∧ c ≤ 'z') ∨ ('0' ≤ c ∧ c ≤ '9') ∨ c = '-')
  let cs := collapseHyphens cs
  let cs := ((cs.dropWhile (fun c => c = '-')).reverse.dropWhile (fun c => c = '-')).reverse
  String.mk cs

/-- `resolveTags` of the equip tool: the formatted tag line, or `none`. -/
def resolveTagsLine (db : DBState) (memoryId : Nat) : Option String :=
  let ts := tagNamesOf db memoryId
  if ts.isEmpty then none else some ("Tags: " ++ String.intercalate ", " ts)

/-- `resolveRelations` of the equip tool: the formatted `uses:` line, or
`none`. -/
def resolveRelationsLine (db : DBState) (memoryId : Nat) : Option String :=
  let rels := db.memoryRelations.filter (fun r => r.1 == memoryId)
  if rels.isEmpty then none
  else
    let related := rels.filterMap (fun r =>
      (db.memories.find? (fun m => m.id == r.2)).map (fun m => (m.id, m.title)))
    if related.isEmpty then none
    else some ("uses: " ++ String.intercalate ", "
      (related.map (fun p => "[M" ++ toString p.1 ++ "] " ++ p.2)))

/-- The memories-by-id branch of the equip tool, for a single id: the
lookup excludes locked rows (`ne(memories.permission, 'locked')`), so a
locked id produces the not-found message, never the record's content. -/
def equipMemoryById (db : DBState) (id : Nat) : String :=
  match db.memories.find? (fun m => m.id == id && m.permission != Permission.locked) with
  | none => "Memory " ++ toString id ++ " not found."
  | some m =>
    let tag := beaconTag m.title
    let beacon := upperStr m.type
    let lines := ["[" ++ beacon ++ ":" ++ tag ++ "]",
      "ID: " ++ toString m.id ++ " | Status: " ++ m.status
        ++ " | Permission: " ++ m.permission.toStr]
    let lines := match resolveTagsLine db m.id with
      | some l => lines ++ [l]
      | none => lines
    let lines := match resolveRelationsLine db m.id with
      | some l => lines ++ [l]
      | none => lines
    let lines := lines ++ ["", m.content, "[/" ++ beacon ++ ":" ++ tag ++ "]"]
    String.intercalate "\n" lines

/-- The project rows `handleList` of the project tool selects: everything
not soft-deleted, most-recently-updated first — the filter is on `status`
only, not on `permission`. -/
def handleListRows (db : DBState) : List ProjectRow :=
  List.insertionSort projRecentGE
    (db.projects.filter (fun p => p.status != "deleted"))

/-- `handleList`: the formatted project listing. -/
def handleList (db : DBState) : String :=
  let all := handleListRows db
  if all.isEmpty then "No projects."
  else String.intercalate "\n"
    (all.map (fun p => "[P" ++ toString p.id ++ "] " ++ p.name ++ " — " ++ p.status))

/-- The classification-path segments of a memory row.  The current schema
generation stores none: the `memories` DDL has no `path` column and
`initializeDatabase` drops the legacy `memory_paths` table, so every
record's segment list is empty. -/
def pathSegments (_ : MemoryRow) : List String := []

/-- All stored tag names are in normal form (lowercased and trimmed) —
every write path (`saveTags`, the seeds) normalizes before insert. -/
def TagsNormalized (db : DBState) : Prop :=
  ∀ t ∈ db.tags, trimStr (lowerStr t.2) = t.2

/-- The spec's matching clause (§4.3), in the spec's words: the query
matches case-insensitively against title, body, classification-path
segments, and tag names. -/
def specMatches (db : DBState) (query : String) (m : MemoryRow) : Prop :=
  likeContains query m.title = true
  ∨ likeContains query m.content = true
  ∨ (∃ seg ∈ pathSegments m, likeContains query seg = true)
  ∨ (∃ tn ∈ tagNamesOf db m.id, trimStr (lowerStr tn) = trimStr (lowerStr query))

/-- The spec's row predicate for `find`: not locked, passing the type
filter, and matching the query when one is present. -/
def SpecPred (db : DBState) (query t : Option String) (m : MemoryRow) : Prop :=
  m.permission ≠ .locked
  ∧ ((t.getD "") ≠ "" → m.type = t.getD "")
  ∧ ((query.getD "") ≠ "" → specMatches db (query.getD "") m)

/-- The `search_default_limit` setting, when present, parses to a natural
number (as the seeded default `"20"` does). -/
def LimitOk (db : DBState) : Prop :=
  match getSetting db "search_default_limit" with
  | none => True
  | some s => ∃ n : Nat, parseInt10 s = some (n : Int)

theorem searchLimit_nonneg {db : DBState} (h : LimitOk db) : 0 ≤ searchLimit db := by
  unfold LimitOk at h
  unfold searchLimit
  cases hs : getSetting db "search_default_limit" with
  | none => norm_num
  | some s =>
    rw [hs] at h
    obtain ⟨n, hn⟩ := h
    simp [hn]

theorem mem_tagNamesOf {db : DBState} {mid : Nat} {tn : String}
    (h : tn ∈ tagNamesOf db mid) : ∃ t ∈ db.tags, t.2 = tn := by
  unfold tagNamesOf at h
  obtain ⟨mt, _, hmt⟩ := List.mem_filterMap.mp h
  obtain ⟨t, ht, rfl⟩ := Option.map_eq_some'.mp hmt
  exact ⟨t, List.mem_of_find?_eq_some ht, rfl⟩

theorem memMatches_iff_spec {db : DBState} (q : String) (m : MemoryRow)
    (ht : TagsNormalized db) :
    memMatchesQuery db q m = true ↔ specMatches db q m := by
  unfold memMatchesQuery specMatches pathSegments
  simp only [Bool.or_eq_true, List.contains_iff_exists_mem_beq, beq_iff_eq]
  constructor
  · rintro ((h1 | h2) | ⟨tn, htn, heq⟩)
    · exact Or.inl h1
    · exact Or.inr (Or.inl h2)
    · refine Or.inr (Or.inr (Or.inr ⟨tn, htn, ?_⟩))
      obtain ⟨t, htag, ht2⟩ := mem_tagNamesOf htn
      rw [← ht2] at heq ⊢
      rw [ht t htag]
      exact heq.symm
  · rintro (h1 | h2 | ⟨seg, hseg, _⟩ | ⟨tn, htn, heq⟩)
    · exact Or.inl (Or.inl h1)
    · exact Or.inl (Or.inr h2)
    · simp at hseg
    · refine Or.inr ⟨tn, htn, ?_⟩
      obtain ⟨t, htag, ht2⟩ := mem_tagNamesOf htn
      rw [← ht2] at heq ⊢
      exact heq.symm.trans (ht t htag)

theorem memPred_iff_spec {db : DBState} (q t : Option String) (s : ScopeCond)
    (m : MemoryRow) (ht : TagsNormalized db) :
    memPred db q t s m = true ↔ (scopeHolds s m.projectId = true ∧ SpecPred db q t m) := by
  unfold memPred SpecPred
  simp only [Bool.and_eq_true, bne_iff_ne, ne_eq]
  constructor
  · rintro ⟨⟨⟨hperm, hscope⟩, htype⟩, hquery⟩
    refine ⟨hscope, hperm, ?_, ?_⟩
    · intro hne
      simpa [hne] using htype
    · intro hne
      rw [if_pos hne] at hquery
      exact (memMatches_iff_spec _ _ ht).mp hquery
  · rintro ⟨hscope, hperm, htype, hquery⟩
    refine ⟨⟨⟨hperm, hscope⟩, ?_⟩, ?_⟩
    · by_cases hne : (t.getD "") ≠ ""
      · simpa [hne] using htype hne
      · simp at hne; simp [hne]
    · by_cases hne : (q.getD "") ≠ ""
      · rw [if_pos hne]
        exact (memMatches_iff_spec _ _ ht).mpr (hquery hne)
      · simp at hne; simp [hne]

theorem mem_searchMemoriesRows {db : DBState} {q t : Option String} {s : ScopeCond}
    {m : MemoryRow} (h : m ∈ searchMemoriesRows db q t s) :
    m ∈ db.memories ∧ memPred db q t s m = true := by
  unfold searchMemoriesRows applyLimit at h
  have h' : m ∈ List.insertionSort memRecentGE (db.memories.filter (memPred db q t s)) := by
    by_cases hc : searchLimit db < 0
    · simpa [hc] using h
    · rw [if_neg hc] at h
      exact (List.take_sublist _ _).mem h
  exact List.mem_filter.mp ((List.perm_insertionSort memRecentGE _).mem_iff.mp h')

theorem sorted_searchMemoriesRows (db : DBState) (q t : Option String) (s : ScopeCond) :
    List.Pairwise memRecentGE (searchMemoriesRows db q t s) := by
  unfold searchMemoriesRows applyLimit
  have hs : List.Pairwise memRecentGE
      (List.insertionSort memRecentGE (db.memories.filter (memPred db q t s))) :=
    List.sorted_insertionSort memRecentGE _
  by_cases hc : searchLimit db < 0
  · simpa [hc] using hs
  · rw [if_neg hc]
    exact hs.sublist (List.take_sublist _ _)

theorem length_searchMemoriesRows (db : DBState) (q t : Option String) (s : ScopeCond)
    (h : 0 ≤ searchLimit db) :
    (searchMemoriesRows db q t s).length ≤ (searchLimit db).toNat := by
  unfold searchMemoriesRows applyLimit
  rw [if_neg (not_lt.mpr h)]
  exact List.length_take_le _ _

theorem complete_searchMemoriesRows {db : DBState} {q t : Option String} {s : ScopeCond}
    {m : MemoryRow} (hm : m ∈ db.memories) (hp : memPred db q t s m = true)
    (hlen : (db.memories.filter (memPred db q t s)).length ≤ (searchLimit db).toNat) :
    m ∈ searchMemoriesRows db q t s := by
  unfold searchMemoriesRows applyLimit
  have hmem : m ∈ List.insertionSort memRecentGE (db.memories.filter (memPred db q t s)) :=
    (List.perm_insertionSort memRecentGE _).mem_iff.mpr (List.mem_filter.mpr ⟨hm, hp⟩)
  by_cases hc : searchLimit db < 0
  · simpa [hc] using hmem
  · rw [if_neg hc]
    rw [List.take_of_length_le]
    · exact hmem
    · rw [(List.perm_insertionSort memRecentGE _).length_eq]
      exact hlen

/-- C7: in global mode (no active Container), `find` is a single scan of
the whole store: the result is a most-recently-updated-first listing of
rows that are not locked, pass the type filter and match the query
case-insensitively against title, body, classification-path segments and
tag names (the current schema stores no path segments), capped at the
configured bound; and when the matching rows fit inside the cap, every one
of them is present. -/
theorem C7_global_single_scan (db : DBState) (q t : Option String)
    (hact : getActiveProject db = none) (hlim : LimitOk db)
    (htags : TagsNormalized db) :
    ∃ ms, handleFind db q t = .global (ms.map (toFoundRow db))
    ∧ List.Pairwise memRecentGE ms
    ∧ (∀ m ∈ ms, m ∈ db.memories ∧ SpecPred db q t m)
    ∧ ms.length ≤ (searchLimit db).toNat
    ∧ ((db.memories.filter (memPred db q t .all)).length ≤ (searchLimit db).toNat →
        ∀ m ∈ db.memories, SpecPred db q t m → m ∈ ms) := by
  refine ⟨searchMemoriesRows db q t .all, ?_, sorted_searchMemoriesRows db q t .all,
    ?_, length_searchMemoriesRows db q t .all (searchLimit_nonneg hlim), ?_⟩
  · unfold handleFind searchMemories
    rw [hact]
  · intro m hm
    obtain ⟨hmem, hp⟩ := mem_searchMemoriesRows hm
    exact ⟨hmem, ((memPred_iff_spec q t .all m htags).mp hp).2⟩
  · intro hlen m hm hsp
    exact complete_searchMemoriesRows hm
      ((memPred_iff_spec q t .all m htags).mpr ⟨rfl, hsp⟩) hlen

/-- Witness store for global-mode find: one matching open memory, one
locked memory, no active project. -/
def dbGlobalW : DBState :=
  { memories :=
      [{ id := 10, type := "note", title := "Request timeout fix",
         content := "body", updatedAt := 5 },
       { id := 12, type := "note", title := "secret timeout",
         content := "hidden", permission := .locked, updatedAt := 9 }],
    globalCtx := some {} }

/-- C7 witness: the global-scan theorem applied to `dbGlobalW` with query
`"timeout"`. -/
theorem C7_global_single_scan_witness :
    ∃ ms, handleFind dbGlobalW (some "timeout") none = .global (ms.map (toFoundRow dbGlobalW))
    ∧ List.Pairwise memRecentGE ms
    ∧ (∀ m ∈ ms, m ∈ dbGlobalW.memories ∧ SpecPred dbGlobalW (some "timeout") none m)
    ∧ ms.length ≤ (searchLimit dbGlobalW).toNat
    ∧ ((dbGlobalW.memories.filter (memPred dbGlobalW (some "timeout") none .all)).length
          ≤ (searchLimit dbGlobalW).toNat →
        ∀ m ∈ dbGlobalW.memories, SpecPred dbGlobalW (some "timeout") none m → m ∈ ms) :=
  C7_global_single_scan dbGlobalW (some "timeout") none (by decide)
    (by simp [LimitOk, getSetting, dbGlobalW]) (by simp [TagsNormalized, dbGlobalW])

theorem filter_of_map {α β : Type} (f : α → β) (p : β → Bool) (l : List α) :
    (l.map f).filter p = (l.filter (fun a => p (f a))).map f := by
  induction l with
  | nil => rfl
  | cons a tl ih => by_cases h : p (f a) = true <;> simp [List.filter_cons, h, ih]

theorem mem_firstDedupAux : ∀ (l seen : List String) (x : String),
    x ∈ firstDedupAux l seen ↔ (x ∈ l ∧ x ∉ seen) := by
  intro l
  induction l with
  | nil => intro seen x; simp [firstDedupAux]
  | cons k ks ih =>
    intro seen x
    by_cases hk : seen.contains k
    · have hk' : k ∈ seen := by simpa using hk
      rw [firstDedupAux, if_pos hk, ih seen x]
      simp only [List.mem_cons]
      constructor
      · rintro ⟨hx, hns⟩
        exact ⟨Or.inr hx, hns⟩
      · rintro ⟨hx | hx, hns⟩
        · exact absurd (hx ▸ hk') hns
        · exact ⟨hx, hns⟩
    · have hk' : k ∉ seen := by simpa using hk
      rw [firstDedupAux, if_neg hk]
      simp only [List.mem_cons, ih (k :: seen) x]
      constructor
      · rintro (rfl | ⟨hx, hns⟩)
        · exact ⟨Or.inl rfl, hk'⟩
        · exact ⟨Or.inr hx, fun hxs => hns (Or.inr hxs)⟩
      · rintro ⟨rfl | hx, hns⟩
        · exact Or.inl rfl
        · by_cases hxk : x = k
          · exact Or.inl hxk
          · exact Or.inr ⟨hx, fun hc => hc.elim hxk hns⟩

theorem nodup_firstDedupAux : ∀ (l seen : List String), (firstDedupAux l seen).Nodup := by
  intro l
  induction l with
  | nil => intro seen; simp [firstDedupAux]
  | cons k ks ih =>
    intro seen
    by_cases hk : seen.contains k
    · rw [firstDedupAux, if_pos hk]
      exact ih _
    · rw [firstDedupAux, if_neg hk]
      refine List.nodup_cons.mpr ⟨?_, ih _⟩
      intro hmem
      have := (mem_firstDedupAux ks (k :: seen) k).mp hmem
      simp at this

theorem mem_of_mem_firstDedup {l : List String} {x : String}
    (h : x ∈ firstDedup l) : x ∈ l :=
  ((mem_firstDedupAux l [] x).mp h).1

theorem mem_firstDedup_of_mem {l : List String} {x : String}
    (h : x ∈ l) : x ∈ firstDedup l :=
  (mem_firstDedupAux l [] x).mpr ⟨h, by simp⟩

theorem firstDedup_nodup (l : List String) : (firstDedup l).Nodup :=
  nodup_firstDedupAux l []

theorem groupNether_keys (rows : List FoundRow) :
    (groupNether rows).map Prod.fst
      = List.insertionSort netherKeyLE (firstDedup (rows.map rowKey)) := by
  unfold groupNether
  rw [List.map_map]
  exact List.map_id _

/-- C8: with a Container active, `find` returns the in-scope rows first
and the fallback rows grouped by owning Container name: group keys are
distinct and ordered named-Containers-alphabetically with `"Global"`
(unscoped rows) last, every fallback row lands in its group, and each
group keeps the scan's most-recently-updated-first order. -/
theorem C8_scoped_grouping (db : DBState) (q t : Option String) (pid : Nat)
    (pname : String) (hact : getActiveProject db = some (pid, pname)) :
    ∃ groups,
      handleFind db q t
        = .scoped pid pname (searchMemories db q t (.inProject pid)) groups
      ∧ ((searchMemories db q t (.notProject pid)).isEmpty = true → groups = [])
      ∧ ((searchMemories db q t (.notProject pid)).isEmpty = false →
          List.Pairwise netherKeyLE (groups.map Prod.fst)
          ∧ (groups.map Prod.fst).Nodup
          ∧ (∀ g ∈ groups,
              g.2 = (searchMemories db q t (.notProject pid)).filter
                  (fun r => rowKey r == g.1)
              ∧ g.2 ≠ [])
          ∧ (∀ r ∈ searchMemories db q t (.notProject pid),
              rowKey r ∈ groups.map Prod.fst)
          ∧ (∀ g ∈ groups, ∃ gms, g.2 = gms.map (toFoundRow db)
              ∧ List.Pairwise memRecentGE gms)) := by
  refine ⟨if (searchMemories db q t (.notProject pid)).isEmpty then []
    else groupNether (searchMemories db q t (.notProject pid)), ?_, ?_, ?_⟩
  · unfold handleFind
    rw [hact]
  · intro h
    simp [h]
  · intro h
    rw [if_neg (by simp [h])]
    set nether := searchMemories db q t (.notProject pid) with hnether
    refine ⟨?_, ?_, ?_, ?_, ?_⟩
    · rw [groupNether_keys]
      exact List.sorted_insertionSort netherKeyLE _
    · rw [groupNether_keys]
      exact ((List.perm_insertionSort netherKeyLE _).nodup_iff).mpr
        (firstDedup_nodup _)
    · intro g hg
      obtain ⟨k, hk, rfl⟩ := List.mem_map.mp hg
      refine ⟨rfl, ?_⟩
      have hk' : k ∈ firstDedup (nether.map rowKey) :=
        (List.perm_insertionSort netherKeyLE _).mem_iff.mp hk
      obtain ⟨r, hr, hrk⟩ := List.mem_map.mp (mem_of_mem_firstDedup hk')
      have hrf : r ∈ nether.filter (fun r => rowKey r == k) :=
        List.mem_filter.mpr ⟨hr, by simp [hrk]⟩
      intro hempty
      have hempty' : nether.filter (fun r => rowKey r == k) = [] := hempty
      rw [hempty'] at hrf
      simp at hrf
    · intro r hr
      rw [groupNether_keys]
      refine ((List.perm_insertionSort netherKeyLE _).mem_iff).mpr ?_
      exact mem_firstDedup_of_mem (List.mem_map_of_mem rowKey hr)
    · intro g hg
      obtain ⟨k, hk, rfl⟩ := List.mem_map.mp hg
      refine ⟨(searchMemoriesRows db q t (.notProject pid)).filter
        (fun mr => rowKey (toFoundRow db mr) == k), ?_, ?_⟩
      · simp only [hnether, searchMemories]
        exact filter_of_map (toFoundRow db) (fun r => rowKey r == k) _
      · exact (sorted_searchMemoriesRows db q t (.notProject pid)).filter _

/-- Witness rows and store for the scoped-find scenario: Container
`"alpha"` active, one matching item inside it, one matching global item. -/
def mAlphaW : MemoryRow :=
  { id := 10, projectId := some 1, type := "note", title := "Request timeout fix",
    content := "body", updatedAt := 5 }

/-- The matching global (container-less) item of the scenario. -/
def mGlobalOnlyW : MemoryRow :=
  { id := 11, projectId := none, type := "note", title := "timeout defaults",
    content := "body2", updatedAt := 3 }

/-- The scenario's active Container. -/
def pAlphaW : ProjectRow := { id := 1, name := "alpha", updatedAt := 2 }

/-- The scenario store: `"alpha"` is the active Container. -/
def dbScopedW : DBState :=
  { projects := [pAlphaW], memories := [mAlphaW, mGlobalOnlyW],
    globalCtx := some { activeProjectId := some 1 } }

/-- C8 witness: on the scenario store, searching `"timeout"` yields an
`"alpha"` section with one row and a fallback section with one group
labeled `"Global"` holding one row; and the grouping theorem applies. -/
theorem C8_scoped_grouping_witness :
    (handleFind dbScopedW (some "timeout") none
      = .scoped 1 "alpha"
          [{ id := 10, type := "note", title := "Request timeout fix",
             status := "draft", projectId := some 1, projectName := some "alpha" }]
          [("Global",
            [{ id := 11, type := "note", title := "timeout defaults",
               status := "draft", projectId := none, projectName := none }])])
    ∧ (∃ groups,
        handleFind dbScopedW (some "timeout") none
          = .scoped 1 "alpha"
              (searchMemories dbScopedW (some "timeout") none (.inProject 1)) groups
        ∧ ((searchMemories dbScopedW (some "timeout") none (.notProject 1)).isEmpty = true
            → groups = [])
        ∧ ((searchMemories dbScopedW (some "timeout") none (.notProject 1)).isEmpty = false →
            List.Pairwise netherKeyLE (groups.map Prod.fst)
            ∧ (groups.map Prod.fst).Nodup
            ∧ (∀ g ∈ groups,
                g.2 = (searchMemories dbScopedW (some "timeout") none (.notProject 1)).filter
                    (fun r => rowKey r == g.1)
                ∧ g.2 ≠ [])
            ∧ (∀ r ∈ searchMemories dbScopedW (some "timeout") none (.notProject 1),
                rowKey r ∈ groups.map Prod.fst)
            ∧ (∀ g ∈ groups, ∃ gms, g.2 = gms.map (toFoundRow dbScopedW)
                ∧ List.Pairwise memRecentGE gms))) :=
  ⟨by decide, C8_scoped_grouping dbScopedW (some "timeout") none 1 "alpha" (by decide)⟩

theorem searchMemories_not_locked {db : DBState} {q t : Option String}
    {s : ScopeCond} {r : FoundRow} (h : r ∈ searchMemories db q t s) :
    ∃ m' ∈ db.memories, m'.permission ≠ .locked ∧ r = toFoundRow db m' := by
  unfold searchMemories at h
  obtain ⟨m', hm', rfl⟩ := List.mem_map.mp h
  obtain ⟨hmem, hp⟩ := mem_searchMemoriesRows hm'
  refine ⟨m', hmem, ?_, rfl⟩
  unfold memPred at hp
  simp only [Bool.and_eq_true, bne_iff_ne, ne_eq] at hp
  exact hp.1.1.1

theorem mem_groupNether {rows : List FoundRow} {g : String × List FoundRow}
    (hg : g ∈ groupNether rows) : ∀ r ∈ g.2, r ∈ rows := by
  unfold groupNether at hg
  obtain ⟨k, _, rfl⟩ := List.mem_map.mp hg
  intro r hr
  exact (List.mem_filter.mp hr).1

/-- C1 (amended): a locked Knowledge Item never appears in any `find`
result — neither the global listing nor the in-scope or fallback sections
of a scoped search — and the direct-by-id equip read of it returns the
not-found message, never the record's content. -/
theorem C1_locked_memory_hidden (db : DBState) (q t : Option String) (m : MemoryRow)
    (hm : m ∈ db.memories) (hl : m.permission = .locked)
    (hids : (db.memories.map MemoryRow.id).Nodup) :
    (∀ rows, handleFind db q t = .global rows → ∀ r ∈ rows, r.id ≠ m.id)
    ∧ (∀ pid pn inRows groups, handleFind db q t = .scoped pid pn inRows groups →
        (∀ r ∈ inRows, r.id ≠ m.id) ∧ (∀ g ∈ groups, ∀ r ∈ g.2, r.id ≠ m.id))
    ∧ equipMemoryById db m.id = "Memory " ++ toString m.id ++ " not found." := by
  have key : ∀ (s : ScopeCond) (r : FoundRow), r ∈ searchMemories db q t s →
      r.id ≠ m.id := by
    intro s r hr heq
    obtain ⟨m', hmem, hperm, rfl⟩ := searchMemories_not_locked hr
    have hids' : m' = m := List.inj_on_of_nodup_map hids hmem hm
      (by simpa [toFoundRow] using heq)
    exact hperm (hids' ▸ hl)
  refine ⟨?_, ?_, ?_⟩
  · intro rows heq r hr
    unfold handleFind at heq
    cases hga : getActiveProject db with
    | none =>
      rw [hga] at heq
      simp only [FindOut.global.injEq] at heq
      rw [← heq] at hr
      exact key .all r hr
    | some pr =>
      rw [hga] at heq
      simp at heq
  · intro pid pn inRows groups heq
    unfold handleFind at heq
    cases hga : getActiveProject db with
    | none =>
      rw [hga] at heq
      simp at heq
    | some pr =>
      obtain ⟨pid', pname'⟩ := pr
      rw [hga] at heq
      simp only [FindOut.scoped.injEq] at heq
      obtain ⟨hp1, _, hin, hgr⟩ := heq
      constructor
      · intro r hr
        rw [← hin] at hr
        exact key (.inProject pid') r hr
      · intro g hg r hr
        rw [← hgr] at hg
        by_cases hne : (searchMemories db q t (.notProject pid')).isEmpty
        · rw [if_pos hne] at hg
          simp at hg
        · rw [if_neg hne] at hg
          have := mem_groupNether hg r hr
          exact key (.notProject pid') r this
  · have hnone : db.memories.find?
        (fun m' => m'.id == m.id && m'.permission != Permission.locked) = none := by
      apply List.find?_eq_none.mpr
      intro x hx hpx
      simp only [Bool.and_eq_true, beq_iff_eq, bne_iff_ne, ne_eq] at hpx
      have : x = m := List.inj_on_of_nodup_map hids hx hm hpx.1
      exact hpx.2 (this ▸ hl)
    unfold equipMemoryById
    rw [hnone]

/-- Witness store for the locked-memory theorem: one locked item. -/
def dbLockedMemW : DBState :=
  { memories := [{ id := 7, type := "note", title := "hidden", content := "secret",
                   permission := .locked, updatedAt := 4 }],
    globalCtx := some {} }

/-- The locked item of `dbLockedMemW`. -/
def mLockedW : MemoryRow :=
  { id := 7, type := "note", title := "hidden", content := "secret",
    permission := .locked, updatedAt := 4 }

/-- C1 witness: the amended theorem applied to the one locked item of
`dbLockedMemW`. -/
theorem C1_locked_memory_hidden_witness :
    (∀ rows, handleFind dbLockedMemW (some "hidden") none = .global rows →
        ∀ r ∈ rows, r.id ≠ mLockedW.id)
    ∧ (∀ pid pn inRows groups,
        handleFind dbLockedMemW (some "hidden") none = .scoped pid pn inRows groups →
        (∀ r ∈ inRows, r.id ≠ mLockedW.id)
        ∧ (∀ g ∈ groups, ∀ r ∈ g.2, r.id ≠ mLockedW.id))
    ∧ equipMemoryById dbLockedMemW mLockedW.id
        = "Memory " ++ toString mLockedW.id ++ " not found." :=
  C1_locked_memory_hidden dbLockedMemW (some "hidden") none mLockedW
    (by decide) (by decide) (by decide)

/-- The locked Container the counterexample lists. -/
def pLockedCx : ProjectRow :=
  { id := 1, name := "alpha", permission := .locked, updatedAt := 1 }

/-- Counterexample store: a single locked, active Container. -/
def dbListCx : DBState := { projects := [pLockedCx] }

/-- C1 counterexample: a record with permission `locked` (a Container)
does appear in the listing returned by the project tool's list operation —
the listing filters only on soft-deleted status, not on permission. -/
theorem C1_locked_project_listed :
    pLockedCx.permission = Permission.locked
    ∧ pLockedCx ∈ handleListRows dbListCx
    ∧ handleList dbListCx = "[P1] alpha — active" := by
  refine ⟨rfl, ?_, rfl⟩
  simp [handleListRows, dbListCx, List.insertionSort, pLockedCx]

/-- JS truthiness of an optional string argument: absent and empty are
both falsy. -/
def strTruthy (o : Option String) : Bool := (o.getD "") ≠ ""

/-- JS truthiness of an optional numeric argument: absent and zero are
both falsy. -/
def natTruthy (o : Option Nat) : Bool := (o.getD 0) ≠ 0

/-- `args.tags.split(",").map(t => t.trim()).filter(Boolean)`. -/
def splitTags (s : String) : List String :=
  ((s.splitOn ",").map trimStr).filter (fun x => x ≠ "")

/-- The arguments of the memory tool's save action. -/
structure SaveArgs where
  type : Option String := none
  title : Option String := none
  content : Option String := none
  project : Option String := none
  tags : Option String := none
  status : Option String := none
  permission : Option String := none
deriving Repr, DecidableEq

/-- Validation of an optional enum argument: checked only when truthy
(the source guards each `validateEnum` call with `if (args.x)`). -/
def checkEnum (o : Option String) (allowed : List String) (fieldName : String) :
    Option String :=
  if strTruthy o then validateEnum (o.getD "") allowed fieldName else none

/-- The permission cascade of `handleSave`: scratchpads are forced open,
then explicit argument → project default → global setting → `"guarded"`. -/
def savePermissionCascade (db : DBState) (proj : Option (Nat × String))
    (args : SaveArgs) : Permission :=
  let p0 : Option Permission :=
    if args.type.getD "" == "scratchpad" then some .«open»
    else if strTruthy args.permission then Permission.ofStr? (args.permission.getD "")
    else none
  let p1 : Option Permission :=
    match p0 with
    | some p => some p
    | none =>
      match proj with
      | some pr =>
        (db.projects.find? (fun p => p.id == pr.1)).map
          (fun p => p.defaultMemoryPermission)
      | none => none
  let p2 : Option Permission :=
    match p1 with
    | some p => some p
    | none =>
      match getSetting db "default_memory_permission" with
      | some sp => if PERMISSION.contains sp then Permission.ofStr? sp else none
      | none => none
  p2.getD .guarded

/-- The row `handleSave` inserts when it does not take the context-upsert
branch. -/
def saveRow (db : DBState) (now : Nat) (args : SaveArgs) : MemoryRow :=
  { id := db.nextMemoryId,
    projectId := (resolveProject db args.project).map Prod.fst,
    type := args.type.getD "", title := args.title.getD "",
    content := args.content.getD "", status := args.status.getD "draft",
    permission := savePermissionCascade db (resolveProject db args.project) args,
    createdAt := now, updatedAt := now }

/-- `handleSave` of the memory tool: validations, project resolution, the
session-context upsert, the scratchpad and permission cascade, then the
insert and tag persistence.  The context-upsert branch writes the existing
row directly — no `guardedAction` involved (the function does not even
receive the tool context). -/
def handleSave (db : DBState) (now : Nat) (args : SaveArgs) : DBState × String :=
  if ¬ strTruthy args.type then (db, "Type is required.")
  else if ¬ strTruthy args.title then (db, "Title is required.")
  else if ¬ strTruthy args.content then (db, "Content is required.")
  else
    match validateEnum (args.type.getD "") MEMORY_TYPE "type" with
    | some e => (db, e)
    | none =>
    match checkEnum args.status MEMORY_STATUS "status" with
    | some e => (db, e)
    | none =>
    match checkEnum args.permission PERMISSION "permission" with
    | some e => (db, e)
    | none =>
      let proj := resolveProject db args.project
      let existing :=
        if args.type.getD "" == "context" then
          db.memories.find? (fun m =>
            m.type == "context" && m.projectId == proj.map Prod.fst)
        else none
      match existing with
      | some ex =>
        ({ db with memories := db.memories.map (fun m =>
            if m.id == ex.id then
              { m with title := args.title.getD "", content := args.content.getD "",
                       updatedAt := now }
            else m) },
         "Context updated: [" ++ toString ex.id ++ "] [context] " ++ args.title.getD "")
      | none =>
        let memId := db.nextMemoryId
        let db1 :=
          { db with
            memories := db.memories ++ [saveRow db now args],
            nextMemoryId := memId + 1 }
        let db2 :=
          if strTruthy args.tags then saveTags db1 memId (splitTags (args.tags.getD ""))
          else db1
        (db2, "Saved: [" ++ toString memId ++ "] [" ++ args.type.getD "" ++ "] "
          ++ args.title.getD "")

/-- A mutation handler's outcome: resulting store, returned message, and
the `guardedAction` invocations it made (entity and action). -/
structure HandlerOut where
  db : DBState
  msg : String
  guarded : List (ProtectedEntity × ActionType)
deriving Repr

/-- The arguments of the memory tool's update action. -/
structure UpdateArgs where
  id : Option Nat := none
  title : Option String := none
  content : Option String := none
  tags : Option String := none
  status : Option String := none
  append : Option Bool := none
deriving Repr, DecidableEq

/-- `handleUpdate` of the memory tool: look up the row, validate, then
mutate inside `guardedAction`. -/
def handleUpdate (db : DBState) (ask : Bool) (now : Nat) (args : UpdateArgs) :
    HandlerOut :=
  if ¬ natTruthy args.id then ⟨db, "Memory ID is required.", []⟩
  else
    let mid := args.id.getD 0
    match db.memories.find? (fun m => m.id == mid) with
    | none => ⟨db, "Memory " ++ toString mid ++ " not found.", []⟩
    | some mem =>
      match checkEnum args.status MEMORY_STATUS "status" with
      | some e => ⟨db, e, []⟩
      | none =>
        let entity : ProtectedEntity :=
          { id := mem.id, name := mem.title, type := "memory",
            permission := mem.permission }
        let r := guardedAction db ask entity .update (fun d =>
          let d1 := { d with memories := d.memories.map (fun m =>
            if m.id == mid then
              { m with
                title := if strTruthy args.title then args.title.getD "" else m.title,
                content :=
                  if strTruthy args.content then
                    if args.append.getD false then
                      mem.content ++ "\n\n" ++ args.content.getD ""
                    else args.content.getD ""
                  else m.content,
                status := if strTruthy args.status then args.status.getD "" else m.status,
                updatedAt := now }
            else m) }
          let d2 :=
            if strTruthy args.tags then
              saveTags { d1 with memoryTags := d1.memoryTags.filter (fun mt => mt.1 != mid) }
                mid (splitTags (args.tags.getD ""))
            else d1
          (d2, Except.ok ("Updated: [" ++ toString mid ++ "] "
            ++ args.title.getD mem.title)))
        ⟨r.db, (match r.out with | .ok v => v | .error e => e), [(entity, .update)]⟩

/-- `handleDelete` of the memory tool: look up the row, then delete inside
`guardedAction`; `memory_tags` and `memory_relations` rows follow by
`ON DELETE CASCADE`. -/
def handleDeleteMemory (db : DBState) (ask : Bool) (idArg : Option Nat) : HandlerOut :=
  if ¬ natTruthy idArg then ⟨db, "Memory ID is required.", []⟩
  else
    let mid := idArg.getD 0
    match db.memories.find? (fun m => m.id == mid) with
    | none => ⟨db, "Memory " ++ toString mid ++ " not found.", []⟩
    | some mem =>
      let entity : ProtectedEntity :=
        { id := mem.id, name := mem.title, type := "memory",
          permission := mem.permission }
      let r := guardedAction db ask entity .delete (fun d =>
        ({ d with
            memories := d.memories.filter (fun m => m.id != mid),
            memoryTags := d.memoryTags.filter (fun mt => mt.1 != mid),
            memoryRelations := d.memoryRelations.filter
              (fun mr => mr.1 != mid && mr.2 != mid) },
         Except.ok ("Deleted: [" ++ toString mid ++ "] " ++ mem.title)))
      ⟨r.db, (match r.out with | .ok v => v | .error e => e), [(entity, .delete)]⟩

/-- Naive `JSON.stringify` of the comma-split, trimmed stack list
(escaping of embedded quotes elided — no claim inspects the value). -/
def stackJson (s : String) : String :=
  "[" ++ String.intercalate ","
    (((s.splitOn ",").map trimStr).map (fun x => "\"" ++ x ++ "\"")) ++ "]"

/-- The arguments of the project tool's update action. -/
structure ProjUpdateArgs where
  name : Option String := none
  description : Option String := none
  stack : Option String := none
  status : Option String := none
  permission : Option String := none
  default_memory_permission : Option String := none
deriving Repr, DecidableEq

/-- `handleUpdate` of the project tool: validations, normalized-name
lookup, then mutation inside `guardedAction`. -/
def handleProjectUpdate (db : DBState) (ask : Bool) (now : Nat)
    (args : ProjUpdateArgs) : HandlerOut :=
  if ¬ strTruthy args.name then ⟨db, "Name is required to identify the project.", []⟩
  else
    match checkEnum args.status WRITABLE_PROJECT_STATUS "status" with
    | some e => ⟨db, e, []⟩
    | none =>
    match checkEnum args.permission PERMISSION "permission" with
    | some e => ⟨db, e, []⟩
    | none =>
    match checkEnum args.default_memory_permission PERMISSION "default_memory_permission" with
    | some e => ⟨db, e, []⟩
    | none =>
      let name := normalizeProjectName (args.name.getD "")
      match db.projects.find? (fun p => p.name == name) with
      | none => ⟨db, "Project \"" ++ name ++ "\" not found.", []⟩
      | some proj =>
        let entity : ProtectedEntity :=
          { id := proj.id, name := proj.name, type := "project",
            permission := proj.permission }
        let r := guardedAction db ask entity .update (fun d =>
          ({ d with projects := d.projects.map (fun p =>
              if p.id == proj.id then
                { p with
                  description := if strTruthy args.description then args.description else p.description,
                  stack := if strTruthy args.stack then some (stackJson (args.stack.getD "")) else p.stack,
                  status := if strTruthy args.status then args.status.getD "" else p.status,
                  permission :=
                    if strTruthy args.permission then
                      (Permission.ofStr? (args.permission.getD "")).getD p.permission
                    else p.permission,
                  defaultMemoryPermission :=
                    if strTruthy args.default_memory_permission then
                      (Permission.ofStr? (args.default_memory_permission.getD "")).getD
                        p.defaultMemoryPermission
                    else p.defaultMemoryPermission,
                  updatedAt := now }
              else p) },
           Except.ok ("Project updated: " ++ name)))
        ⟨r.db, (match r.out with | .ok v => v | .error e => e), [(entity, .update)]⟩

/-- `handleDelete` of the project tool: soft-delete (status set to
`"deleted"`) inside `guardedAction`. -/
def handleProjectDelete (db : DBState) (ask : Bool) (now : Nat)
    (nameArg : Option String) : HandlerOut :=
  if ¬ strTruthy nameArg then ⟨db, "Name is required to identify the project.", []⟩
  else
    let name := normalizeProjectName (nameArg.getD "")
    match db.projects.find? (fun p => p.name == name) with
    | none => ⟨db, "Project \"" ++ name ++ "\" not found.", []⟩
    | some proj =>
      let entity : ProtectedEntity :=
        { id := proj.id, name := proj.name, type := "project",
          permission := proj.permission }
      let r := guardedAction db ask entity .delete (fun d =>
        ({ d with projects := d.projects.map (fun p =>
            if p.id == proj.id then { p with status := "deleted", updatedAt := now }
            else p) },
         Except.ok ("Project soft-deleted: " ++ name
           ++ " (status set to 'deleted'). Hard delete via Minni Studio.")))
      ⟨r.db, (match r.out with | .ok v => v | .error e => e), [(entity, .delete)]⟩

/-- The arguments of the task tool. -/
structure TaskArgs where
  id : Option Nat := none
  project : Option String := none
  parent_id : Option Nat := none
  title : Option String := none
  description : Option String := none
  priority : Option String := none
  status : Option String := none
deriving Repr, DecidableEq

/-- The row the task tool's create branch inserts, given the derived
Container id: note `parentId := args.parent_id` (`args.parent_id ?? null`
in the source) — recorded as supplied, even when the lookup was skipped. -/
def createdTask (db : DBState) (now : Nat) (args : TaskArgs) (pid : Option Nat) :
    TaskRow :=
  { id := db.nextTaskId, projectId := pid, parentId := args.parent_id,
    title := args.title.getD "", description := args.description,
    priority := args.priority.getD "medium", status := "todo",
    createdAt := now, updatedAt := now }

/-- The task tool's create branch (after the shared priority/status
validations).  JS truthiness makes a `parent_id` of `0` skip the parent
lookup, yet `parentId: args.parent_id ?? null` still records it on the
inserted row. -/
def taskCreate (db : DBState) (now : Nat) (args : TaskArgs) : DBState × String :=
  match checkEnum args.priority TASK_PRIORITIES "priority" with
  | some e => (db, e)
  | none =>
  match checkEnum args.status TASK_STATUSES "status" with
  | some e => (db, e)
  | none =>
  if ¬ strTruthy args.title then (db, "Title is required.")
  else
    let derived : Except String (Option Nat) :=
      if natTruthy args.parent_id then
        match db.tasks.find? (fun tk => tk.id == args.parent_id.getD 0) with
        | none => .error ("Parent task " ++ toString (args.parent_id.getD 0) ++ " not found.")
        | some parent => .ok parent.projectId
      else if strTruthy args.project then
        match resolveProject db args.project with
        | none => .error ("Project \"" ++ args.project.getD "" ++ "\" not found.")
        | some pr => .ok (some pr.1)
      else .ok ((getActiveProject db).map Prod.fst)
    match derived with
    | .error e => (db, e)
    | .ok derivedProjectId =>
      let tid := db.nextTaskId
      ({ db with
          tasks := db.tasks ++ [createdTask db now args derivedProjectId],
          nextTaskId := tid + 1 },
       "Task created: [T" ++ toString tid ++ "] " ++ args.title.getD ""
         ++ " (" ++ args.priority.getD "medium" ++ ")")

/-- Whether some task in the list has the given id. -/
def hasTaskId (ts : List TaskRow) (i : Nat) : Bool := ts.any (fun tk => tk.id == i)

/-- One round of orphan removal: keep rows whose parent (if any) is still
present. -/
def dropOrphans (ts : List TaskRow) : List TaskRow :=
  ts.filter (fun tk => match tk.parentId with
    | none => true
    | some p => hasTaskId ts p)

/-- Iterated orphan removal. -/
def dropOrphansIter : Nat → List TaskRow → List TaskRow
  | 0, ts => ts
  | n + 1, ts => dropOrphansIter n (dropOrphans ts)

/-- SQLite `ON DELETE CASCADE` on `tasks.parent_id` (tasks DDL in
`initializeDatabase`): deleting a row also deletes every row whose chain
of parents passes through it, computed here as an orphan-removal
fixpoint. -/
def cascadeDeleteTask (ts : List TaskRow) (i : Nat) : List TaskRow :=
  dropOrphansIter ts.length (ts.filter (fun tk => tk.id != i))

/-- The task tool's delete branch (after the shared validations): find the
row, then a plain `db.delete` relying on the cascade — no permission guard
(work items are unguarded by design). -/
def taskDelete (db : DBState) (args : TaskArgs) : DBState × String :=
  match checkEnum args.priority TASK_PRIORITIES "priority" with
  | some e => (db, e)
  | none =>
  match checkEnum args.status TASK_STATUSES "status" with
  | some e => (db, e)
  | none =>
  if ¬ natTruthy args.id then (db, "Task ID is required.")
  else
    let tid := args.id.getD 0
    match db.tasks.find? (fun tk => tk.id == tid) with
    | none => (db, "Task " ++ toString tid ++ " not found.")
    | some tk =>
      ({ db with tasks := cascadeDeleteTask db.tasks tid },
       "Deleted: [T" ++ toString tid ++ "] " ++ tk.title)

/-- `a` is a (strict) transitive ancestor of the task with id `c` within
the row list `ts`. -/
inductive IsAncestor (ts : List TaskRow) : Nat → Nat → Prop where
  | parent : ∀ {tk : TaskRow} {a : Nat}, tk ∈ ts → tk.parentId = some a →
      IsAncestor ts a tk.id
  | step : ∀ {tk : TaskRow} {p a : Nat}, tk ∈ ts → tk.parentId = some p →
      IsAncestor ts a p → IsAncestor ts a tk.id

theorem saveOneTag_memories (db : DBState) (mid : Nat) (n : String) :
    (saveOneTag db mid n).memories = db.memories := by
  unfold saveOneTag
  dsimp only
  split <;> simp [apply_ite (DBState.memories)]

theorem saveTags_memories (names : List String) :
    ∀ (db : DBState) (mid : Nat), (saveTags db mid names).memories = db.memories := by
  induction names with
  | nil => intro db mid; rfl
  | cons n ns ih =>
    intro db mid
    unfold saveTags at *
    rw [List.foldl_cons]
    rw [ih (saveOneTag db mid n) mid]
    exact saveOneTag_memories db mid n

/-- The number of session-context rows in a given scope (a Container id,
or `none` for global). -/
def contextCount (db : DBState) (s : Option Nat) : Nat :=
  (db.memories.filter (fun m => m.type == "context" && m.projectId == s)).length

/-- The context-upsert lookup predicate of `handleSave`. -/
def ctxPred (db : DBState) (args : SaveArgs) (m : MemoryRow) : Bool :=
  m.type == "context" && m.projectId == (resolveProject db args.project).map Prod.fst

theorem handleSave_memories_cases (db : DBState) (now : Nat) (args : SaveArgs) :
    (handleSave db now args).1.memories = db.memories
    ∨ (∃ ex, db.memories.find? (ctxPred db args) = some ex
        ∧ (handleSave db now args).1.memories
          = db.memories.map (fun m =>
              if m.id == ex.id then
                { m with title := args.title.getD "", content := args.content.getD "",
                         updatedAt := now }
              else m))
    ∨ ((handleSave db now args).1.memories = db.memories ++ [saveRow db now args]
        ∧ (args.type.getD "" = "context" →
            db.memories.find? (ctxPred db args) = none)) := by
  unfold handleSave
  by_cases h1 : strTruthy args.type
  case neg => simp [h1]
  by_cases h2 : strTruthy args.title
  case neg => simp [h1, h2]
  by_cases h3 : strTruthy args.content
  case neg => simp [h1, h2, h3]
  cases hv1 : validateEnum (args.type.getD "") MEMORY_TYPE "type" with
  | some e => simp [h1, h2, h3, hv1]
  | none =>
  cases hv2 : checkEnum args.status MEMORY_STATUS "status" with
  | some e => simp [h1, h2, h3, hv1, hv2]
  | none =>
  cases hv3 : checkEnum args.permission PERMISSION "permission" with
  | some e => simp [h1, h2, h3, hv1, hv2, hv3]
  | none =>
  by_cases hctx : (args.type.getD "" == "context") = true
  · cases hex : db.memories.find? (ctxPred db args) with
    | some ex =>
      have hex' : db.memories.find? (fun m =>
          m.type == "context"
            && m.projectId == (resolveProject db args.project).map Prod.fst) = some ex := hex
      refine Or.inr (Or.inl ⟨ex, rfl, ?_⟩)
      simp [h1, h2, h3, hv1, hv2, hv3, hctx, hex']
    | none =>
      have hex' : db.memories.find? (fun m =>
          m.type == "context"
            && m.projectId == (resolveProject db args.project).map Prod.fst) = none := hex
      refine Or.inr (Or.inr ⟨?_, fun _ => rfl⟩)
      by_cases htags : strTruthy args.tags <;>
        simp [h1, h2, h3, hv1, hv2, hv3, hctx, hex', htags, saveTags_memories]
  · refine Or.inr (Or.inr ⟨?_, fun hc => absurd (by simp [hc]) hctx⟩)
    by_cases htags : strTruthy args.tags <;>
      simp [h1, h2, h3, hv1, hv2, hv3, hctx, htags, saveTags_memories]

/-- C5: saving a session-context Knowledge Item when one already exists
for the resolved scope updates that row in place — same row count, the
existing id — and for every scope, a save never grows the number of
session-context rows of that scope beyond one. -/
theorem C5_context_upsert (db : DBState) (now : Nat) (args : SaveArgs)
    (hty : args.type = some "context")
    (h2 : strTruthy args.title = true) (h3 : strTruthy args.content = true)
    (hstat : checkEnum args.status MEMORY_STATUS "status" = none)
    (hperm : checkEnum args.permission PERMISSION "permission" = none) :
    (∀ ex, db.memories.find? (ctxPred db args) = some ex →
        (handleSave db now args).1.memories
          = db.memories.map (fun m =>
              if m.id == ex.id then
                { m with title := args.title.getD "", content := args.content.getD "",
                         updatedAt := now }
              else m)
        ∧ (handleSave db now args).1.memories.length = db.memories.length
        ∧ (handleSave db now args).2
            = "Context updated: [" ++ toString ex.id ++ "] [context] " ++ args.title.getD "")
    ∧ (∀ (args' : SaveArgs) (s : Option Nat), contextCount db s ≤ 1 →
        contextCount (handleSave db now args').1 s ≤ 1) := by
  have h1 : strTruthy args.type = true := by rw [hty]; decide
  have hv1 : validateEnum (args.type.getD "") MEMORY_TYPE "type" = none := by
    rw [hty]; decide
  have hctx : (args.type.getD "" == "context") = true := by rw [hty]; decide
  constructor
  · intro ex hex
    have hex' : db.memories.find? (fun m =>
        m.type == "context"
          && m.projectId == (resolveProject db args.project).map Prod.fst) = some ex := hex
    refine ⟨?_, ?_, ?_⟩ <;>
      simp [handleSave, h1, h2, h3, hv1, hstat, hperm, hctx, hex']
  · intro args' s hle
    rcases handleSave_memories_cases db now args' with hcase | ⟨ex, hex, hmem⟩ | ⟨hmem, hnone⟩
    · unfold contextCount
      rw [hcase]
      exact hle
    · unfold contextCount
      rw [hmem]
      have hcnt : ((db.memories.map (fun m =>
            if m.id == ex.id then
              { m with title := args'.title.getD "", content := args'.content.getD "",
                       updatedAt := now }
            else m)).filter (fun m => m.type == "context" && m.projectId == s)).length
          = ((db.memories.filter (fun m => m.type == "context" && m.projectId == s)).length) := by
        rw [filter_of_map, List.length_map]
        congr 1
        apply List.filter_congr
        intro m _
        by_cases hid : (m.id == ex.id) = true <;> simp [hid]
      rw [hcnt]
      exact hle
    · unfold contextCount
      rw [hmem, List.filter_append, List.length_append]
      by_cases hrow : ((saveRow db now args').type == "context"
          && (saveRow db now args').projectId == s) = true
      · have hrow' := hrow
        simp only [Bool.and_eq_true, beq_iff_eq] at hrow'
        have htyc : args'.type.getD "" = "context" := hrow'.1
        have hscope : (resolveProject db args'.project).map Prod.fst = s := hrow'.2
        have hfe : db.memories.filter (fun m => m.type == "context" && m.projectId == s) = [] := by
          rw [List.filter_eq_nil_iff]
          intro m hm hpm
          have := List.find?_eq_none.mp (hnone htyc) m hm
          apply this
          unfold ctxPred
          rw [hscope]
          exact hpm
        rw [hfe]
        simp [hrow]
      · have hz : ([saveRow db now args'].filter
            (fun m => m.type == "context" && m.projectId == s)).length = 0 := by
          simp [List.filter_cons, hrow]
        unfold contextCount at hle
        omega

/-- Witness store for the context upsert: one global session-context
row. -/
def dbCtxW : DBState :=
  { memories := [{ id := 3, type := "context", title := "old title",
                   content := "old", permission := .«open», updatedAt := 1 }],
    globalCtx := some {} }

/-- Witness save arguments: a new global session-context payload. -/
def argsCtxW : SaveArgs :=
  { type := some "context", title := some "new title", content := some "new" }

/-- C5 witness: the upsert theorem applied to `dbCtxW`. -/
theorem C5_context_upsert_witness :
    (∀ ex, dbCtxW.memories.find? (ctxPred dbCtxW argsCtxW) = some ex →
        (handleSave dbCtxW 9 argsCtxW).1.memories
          = dbCtxW.memories.map (fun m =>
              if m.id == ex.id then
                { m with title := argsCtxW.title.getD "",
                         content := argsCtxW.content.getD "", updatedAt := 9 }
              else m)
        ∧ (handleSave dbCtxW 9 argsCtxW).1.memories.length = dbCtxW.memories.length
        ∧ (handleSave dbCtxW 9 argsCtxW).2
            = "Context updated: [" ++ toString ex.id ++ "] [context] "
              ++ argsCtxW.title.getD "")
    ∧ (∀ (args' : SaveArgs) (s : Option Nat), contextCount dbCtxW s ≤ 1 →
        contextCount (handleSave dbCtxW 9 args').1 s ≤ 1) :=
  C5_context_upsert dbCtxW 9 argsCtxW rfl (by decide) (by decide) (by decide) (by decide)

/-- Counterexample store for C3: a single read-only session-context row,
bypass not configured. -/
def dbSaveCx : DBState :=
  { memories := [{ id := 1, type := "context", title := "ctx", content := "old",
                   permission := .read_only }],
    globalCtx := some {} }

/-- Counterexample save call: a new context payload for the same (global)
scope. -/
def argsSaveCx : SaveArgs :=
  { type := some "context", title := some "t2", content := some "new" }

/-- C3 counterexample: with the bypass inactive, the save operation's
context-upsert branch overwrites an existing read-only record — storage
changes although `guardedAction` (which blocks every read-only mutation,
leaving storage unchanged) was never consulted: `handleSave` has no access
to the confirmation context at all. -/
theorem C3_save_mutates_read_only :
    BypassInactive dbSaveCx
    ∧ (∀ m ∈ dbSaveCx.memories, m.permission = Permission.read_only)
    ∧ (handleSave dbSaveCx 99 argsSaveCx).1.memories
        = [{ id := 1, type := "context", title := "t2", content := "new",
             status := "draft", permission := .read_only, createdAt := 0,
             updatedAt := 99 }]
    ∧ (handleSave dbSaveCx 99 argsSaveCx).1.memories ≠ dbSaveCx.memories := by
  refine ⟨by decide, by decide, by decide, by decide⟩

theorem guardedAction_unchanged_cases {α : Type} (db : DBState) (ask : Bool)
    (e : ProtectedEntity) (a : ActionType)
    (exec : DBState → DBState × Except String α) (hb : BypassInactive db)
    (hne : (guardedAction db ask e a exec).db ≠ db) :
    e.permission ≠ .locked ∧ (a ≠ .read → e.permission ≠ .read_only)
    ∧ (e.permission = .guarded → a ≠ .read → ask = true) := by
  unfold BypassInactive at hb
  obtain ⟨i, n, t, p⟩ := e
  cases p <;> cases a <;> cases ask <;> simp_all [guardedAction]

/-- C3 (amended): the memory tool's update and delete and the project
tool's update and delete touch storage only through `guardedAction`:
whenever one of them changes the store (bypass inactive), the guard was
invoked on exactly the target entity with the matching action, and the
target's permission admitted the mutation (not locked, not read-only, and
confirmed when guarded).  The save operation's session-context upsert is
the exception the counterexample shows. -/
theorem C3_mutations_pass_guard (db : DBState) (ask : Bool) (now : Nat)
    (uargs : UpdateArgs) (did : Option Nat) (puargs : ProjUpdateArgs)
    (pdn : Option String) (hb : BypassInactive db) :
    ((handleUpdate db ask now uargs).db ≠ db →
      ∃ m, db.memories.find? (fun x => x.id == uargs.id.getD 0) = some m
        ∧ (handleUpdate db ask now uargs).guarded
            = [({ id := m.id, name := m.title, type := "memory",
                  permission := m.permission }, ActionType.update)]
        ∧ m.permission ≠ .locked ∧ m.permission ≠ .read_only
        ∧ (m.permission = .guarded → ask = true))
    ∧ ((handleDeleteMemory db ask did).db ≠ db →
      ∃ m, db.memories.find? (fun x => x.id == did.getD 0) = some m
        ∧ (handleDeleteMemory db ask did).guarded
            = [({ id := m.id, name := m.title, type := "memory",
                  permission := m.permission }, ActionType.delete)]
        ∧ m.permission ≠ .locked ∧ m.permission ≠ .read_only
        ∧ (m.permission = .guarded → ask = true))
    ∧ ((handleProjectUpdate db ask now puargs).db ≠ db →
      ∃ p, db.projects.find?
            (fun x => x.name == normalizeProjectName (puargs.name.getD "")) = some p
        ∧ (handleProjectUpdate db ask now puargs).guarded
            = [({ id := p.id, name := p.name, type := "project",
                  permission := p.permission }, ActionType.update)]
        ∧ p.permission ≠ .locked ∧ p.permission ≠ .read_only
        ∧ (p.permission = .guarded → ask = true))
    ∧ ((handleProjectDelete db ask now pdn).db ≠ db →
      ∃ p, db.projects.find?
            (fun x => x.name == normalizeProjectName (pdn.getD "")) = some p
        ∧ (handleProjectDelete db ask now pdn).guarded
            = [({ id := p.id, name := p.name, type := "project",
                  permission := p.permission }, ActionType.delete)]
        ∧ p.permission ≠ .locked ∧ p.permission ≠ .read_only
        ∧ (p.permission = .guarded → ask = true)) := by
  refine ⟨?_, ?_, ?_, ?_⟩
  · unfold handleUpdate
    dsimp only
    by_cases hid : natTruthy uargs.id
    case neg => intro hne; simp [hid] at hne
    cases hf : db.memories.find? (fun m => m.id == uargs.id.getD 0) with
    | none => intro hne; simp [hid] at hne
    | some mem =>
      cases hv : checkEnum uargs.status MEMORY_STATUS "status" with
      | some e => intro hne; simp [hid, hv] at hne
      | none =>
        intro hne
        simp only [hid, hv, Bool.not_true, not_false_eq_true, reduceIte, if_neg] at hne ⊢
        refine ⟨mem, rfl, rfl, ?_⟩
        have hfacts := guardedAction_unchanged_cases db ask
          ⟨mem.id, mem.title, "memory", mem.permission⟩ .update _ hb hne
        exact ⟨hfacts.1, hfacts.2.1 (by decide), fun hg => hfacts.2.2 hg (by decide)⟩
  · unfold handleDeleteMemory
    dsimp only
    by_cases hid : natTruthy did
    case neg => intro hne; simp [hid] at hne
    cases hf : db.memories.find? (fun m => m.id == did.getD 0) with
    | none => intro hne; simp [hid] at hne
    | some mem =>
      intro hne
      simp only [hid, Bool.not_true, not_false_eq_true, reduceIte, if_neg] at hne ⊢
      refine ⟨mem, rfl, rfl, ?_⟩
      have hfacts := guardedAction_unchanged_cases db ask
        ⟨mem.id, mem.title, "memory", mem.permission⟩ .delete _ hb hne
      exact ⟨hfacts.1, hfacts.2.1 (by decide), fun hg => hfacts.2.2 hg (by decide)⟩
  · unfold handleProjectUpdate
    dsimp only
    by_cases hn : strTruthy puargs.name
    case neg => intro hne; simp [hn] at hne
    cases hv1 : checkEnum puargs.status WRITABLE_PROJECT_STATUS "status" with
    | some e => intro hne; simp [hn, hv1] at hne
    | none =>
    cases hv2 : checkEnum puargs.permission PERMISSION "permission" with
    | some e => intro hne; simp [hn, hv1, hv2] at hne
    | none =>
    cases hv3 : checkEnum puargs.default_memory_permission PERMISSION
        "default_memory_permission" with
    | some e => intro hne; simp [hn, hv1, hv2, hv3] at hne
    | none =>
    cases hf : db.projects.find?
        (fun p => p.name == normalizeProjectName (puargs.name.getD "")) with
    | none => intro hne; simp [hn, hv1, hv2, hv3] at hne
    | some proj =>
      intro hne
      simp only [hn, hv1, hv2, hv3, Bool.not_true, not_false_eq_true, reduceIte,
        if_neg] at hne ⊢
      refine ⟨proj, rfl, rfl, ?_⟩
      have hfacts := guardedAction_unchanged_cases db ask
        ⟨proj.id, proj.name, "project", proj.permission⟩ .update _ hb hne
      exact ⟨hfacts.1, hfacts.2.1 (by decide), fun hg => hfacts.2.2 hg (by decide)⟩
  · unfold handleProjectDelete
    dsimp only
    by_cases hn : strTruthy pdn
    case neg => intro hne; simp [hn] at hne
    cases hf : db.projects.find?
        (fun p => p.name == normalizeProjectName (pdn.getD "")) with
    | none => intro hne; simp [hn] at hne
    | some proj =>
      intro hne
      simp only [hn, Bool.not_true, not_false_eq_true, reduceIte, if_neg] at hne ⊢
      refine ⟨proj, rfl, rfl, ?_⟩
      have hfacts := guardedAction_unchanged_cases db ask
        ⟨proj.id, proj.name, "project", proj.permission⟩ .delete _ hb hne
      exact ⟨hfacts.1, hfacts.2.1 (by decide), fun hg => hfacts.2.2 hg (by decide)⟩

/-- Witness store for the guard-routing theorem: one guarded memory and
one guarded project. -/
def dbGuardW : DBState :=
  { memories := [{ id := 1, type := "note", title := "n", content := "c",
                   permission := .guarded }],
    projects := [{ id := 1, name := "alpha", permission := .guarded }],
    globalCtx := some {} }

/-- Witness update arguments for the guard-routing theorem. -/
def uargsW : UpdateArgs := { id := some 1, content := some "x" }

/-- Witness project-update arguments for the guard-routing theorem. -/
def puargsW : ProjUpdateArgs := { name := some "alpha", description := some "d" }

/-- C3 witness: the guard-routing theorem applied to `dbGuardW` with an
accepting callback. -/
theorem C3_mutations_pass_guard_witness :
    ((handleUpdate dbGuardW true 7 uargsW).db ≠ dbGuardW →
      ∃ m, dbGuardW.memories.find? (fun x => x.id == uargsW.id.getD 0) = some m
        ∧ (handleUpdate dbGuardW true 7 uargsW).guarded
            = [({ id := m.id, name := m.title, type := "memory",
                  permission := m.permission }, ActionType.update)]
        ∧ m.permission ≠ .locked ∧ m.permission ≠ .read_only
        ∧ (m.permission = .guarded → true = true))
    ∧ ((handleDeleteMemory dbGuardW true (some 1)).db ≠ dbGuardW →
      ∃ m, dbGuardW.memories.find? (fun x => x.id == (some 1 : Option Nat).getD 0) = some m
        ∧ (handleDeleteMemory dbGuardW true (some 1)).guarded
            = [({ id := m.id, name := m.title, type := "memory",
                  permission := m.permission }, ActionType.delete)]
        ∧ m.permission ≠ .locked ∧ m.permission ≠ .read_only
        ∧ (m.permission = .guarded → true = true))
    ∧ ((handleProjectUpdate dbGuardW true 7 puargsW).db ≠ dbGuardW →
      ∃ p, dbGuardW.projects.find?
            (fun x => x.name == normalizeProjectName (puargsW.name.getD "")) = some p
        ∧ (handleProjectUpdate dbGuardW true 7 puargsW).guarded
            = [({ id := p.id, name := p.name, type := "project",
                  permission := p.permission }, ActionType.update)]
        ∧ p.permission ≠ .locked ∧ p.permission ≠ .read_only
        ∧ (p.permission = .guarded → true = true))
    ∧ ((handleProjectDelete dbGuardW true 7 (some "alpha")).db ≠ dbGuardW →
      ∃ p, dbGuardW.projects.find?
            (fun x => x.name == normalizeProjectName ((some "alpha" : Option String).getD ""))
              = some p
        ∧ (handleProjectDelete dbGuardW true 7 (some "alpha")).guarded
            = [({ id := p.id, name := p.name, type := "project",
                  permission := p.permission }, ActionType.delete)]
        ∧ p.permission ≠ .locked ∧ p.permission ≠ .read_only
        ∧ (p.permission = .guarded → true = true)) :=
  C3_mutations_pass_guard dbGuardW true 7 uargsW (some 1) puargsW (some "alpha") (by decide)

/-- Counterexample store for C9: no tasks at all, no active project. -/
def dbTaskCx : DBState := { globalCtx := some {} }

/-- Counterexample create call: parent id `0` — given, but nonexistent. -/
def argsTaskCx : TaskArgs := { parent_id := some 0, title := some "b" }

/-- C9 counterexample: a parent id of `0` is given and no such task
exists, yet the operation does not fail with NotFound — JS truthiness
skips the parent lookup — and the row is still created with `parent_id`
`0` recorded (`args.parent_id ?? null`), its Container falling back to the
active-project resolution. -/
theorem C9_zero_parent_skips_check :
    dbTaskCx.tasks = []
    ∧ (taskCreate dbTaskCx 5 argsTaskCx).2 = "Task created: [T1] b (medium)"
    ∧ (taskCreate dbTaskCx 5 argsTaskCx).1.tasks.map TaskRow.parentId = [some 0]
    ∧ (taskCreate dbTaskCx 5 argsTaskCx).1.tasks.map TaskRow.projectId = [none] := by
  refine ⟨rfl, by decide, by decide, by decide⟩

/-- C9 (amended): creating a Work Item with a nonzero parent id fails with
NotFound when the parent is absent and otherwise derives the Container
from the parent, ignoring any supplied container name; with no (or zero)
parent id, a given container name is resolved (NotFound when absent), and
otherwise the active Container — possibly none — is used.  A zero parent
id skips the existence check but is still recorded on the new row. -/
theorem C9_container_derivation (db : DBState) (now : Nat) (args : TaskArgs)
    (hpr : checkEnum args.priority TASK_PRIORITIES "priority" = none)
    (hst : checkEnum args.status TASK_STATUSES "status" = none)
    (htitle : strTruthy args.title = true) :
    (∀ p, args.parent_id = some p → p ≠ 0 →
        db.tasks.find? (fun tk => tk.id == p) = none →
        taskCreate db now args = (db, "Parent task " ++ toString p ++ " not found."))
    ∧ (∀ p parent, args.parent_id = some p → p ≠ 0 →
        db.tasks.find? (fun tk => tk.id == p) = some parent →
        (taskCreate db now args).1.tasks
          = db.tasks ++ [createdTask db now args parent.projectId])
    ∧ (args.parent_id.getD 0 = 0 → strTruthy args.project = true →
        resolveProject db args.project = none →
        taskCreate db now args
          = (db, "Project \"" ++ args.project.getD "" ++ "\" not found."))
    ∧ (∀ pr, args.parent_id.getD 0 = 0 → strTruthy args.project = true →
        resolveProject db args.project = some pr →
        (taskCreate db now args).1.tasks
          = db.tasks ++ [createdTask db now args (some pr.1)])
    ∧ (args.parent_id.getD 0 = 0 → strTruthy args.project = false →
        (taskCreate db now args).1.tasks
          = db.tasks ++ [createdTask db now args ((getActiveProject db).map Prod.fst)]) := by
  refine ⟨?_, ?_, ?_, ?_, ?_⟩
  · intro p hp hp0 hf
    have hnt : natTruthy (some p) = true := by simp [natTruthy, hp0]
    simp [taskCreate, hpr, hst, htitle, hp, hnt, hf]
  · intro p parent hp hp0 hf
    have hnt : natTruthy (some p) = true := by simp [natTruthy, hp0]
    simp [taskCreate, hpr, hst, htitle, hp, hnt, hf]
  · intro hz hproj hres
    have hnt : natTruthy args.parent_id = false := by
      simp [natTruthy, hz]
    simp [taskCreate, hpr, hst, htitle, hnt, hproj, hres]
  · intro pr hz hproj hres
    have hnt : natTruthy args.parent_id = false := by
      simp [natTruthy, hz]
    simp [taskCreate, hpr, hst, htitle, hnt, hproj, hres]
  · intro hz hproj
    have hnt : natTruthy args.parent_id = false := by
      simp [natTruthy, hz]
    simp [taskCreate, hpr, hst, htitle, hnt, hproj]

/-- Witness store for C9: Container `"beta"`, one task `A` inside it. -/
def dbTaskW : DBState :=
  { projects := [{ id := 2, name := "beta" }],
    tasks := [{ id := 1, projectId := some 2, title := "A" }],
    globalCtx := some {} }

/-- Witness create call: `B` as a child of `A`, no explicit container. -/
def argsTaskW : TaskArgs := { parent_id := some 1, title := some "B" }

/-- C9 witness: the derivation theorem applied to `dbTaskW` — creating `B`
under `A` resolves `B`'s Container to `A`'s (`"beta"`, id 2). -/
theorem C9_container_derivation_witness :
    (∀ p, argsTaskW.parent_id = some p → p ≠ 0 →
        dbTaskW.tasks.find? (fun tk => tk.id == p) = none →
        taskCreate dbTaskW 3 argsTaskW
          = (dbTaskW, "Parent task " ++ toString p ++ " not found."))
    ∧ (∀ p parent, argsTaskW.parent_id = some p → p ≠ 0 →
        dbTaskW.tasks.find? (fun tk => tk.id == p) = some parent →
        (taskCreate dbTaskW 3 argsTaskW).1.tasks
          = dbTaskW.tasks ++ [createdTask dbTaskW 3 argsTaskW parent.projectId])
    ∧ (argsTaskW.parent_id.getD 0 = 0 → strTruthy argsTaskW.project = true →
        resolveProject dbTaskW argsTaskW.project = none →
        taskCreate dbTaskW 3 argsTaskW
          = (dbTaskW, "Project \"" ++ argsTaskW.project.getD "" ++ "\" not found."))
    ∧ (∀ pr, argsTaskW.parent_id.getD 0 = 0 → strTruthy argsTaskW.project = true →
        resolveProject dbTaskW argsTaskW.project = some pr →
        (taskCreate dbTaskW 3 argsTaskW).1.tasks
          = dbTaskW.tasks ++ [createdTask dbTaskW 3 argsTaskW (some pr.1)])
    ∧ (argsTaskW.parent_id.getD 0 = 0 → strTruthy argsTaskW.project = false →
        (taskCreate dbTaskW 3 argsTaskW).1.tasks
          = dbTaskW.tasks
            ++ [createdTask dbTaskW 3 argsTaskW ((getActiveProject dbTaskW).map Prod.fst)]) :=
  C9_container_derivation dbTaskW 3 argsTaskW (by decide) (by decide) (by decide)

theorem dropOrphans_sublist (ts : List TaskRow) : List.Sublist (dropOrphans ts) ts :=
  List.filter_sublist ts

theorem dropOrphansIter_sublist : ∀ (n : Nat) (ts : List TaskRow),
    List.Sublist (dropOrphansIter n ts) ts := by
  intro n
  induction n with
  | zero => intro ts; exact List.Sublist.refl _
  | succ n ih =>
    intro ts
    exact (ih (dropOrphans ts)).trans (dropOrphans_sublist ts)

theorem dropOrphansIter_fixed : ∀ (n : Nat) (ts : List TaskRow),
    dropOrphans ts = ts → dropOrphansIter n ts = ts := by
  intro n
  induction n with
  | zero => intro ts _; rfl
  | succ n ih =>
    intro ts h
    show dropOrphansIter n (dropOrphans ts) = ts
    rw [h]
    exact ih ts h

theorem dropOrphansIter_fixpoint : ∀ (n : Nat) (ts : List TaskRow), ts.length ≤ n →
    dropOrphans (dropOrphansIter n ts) = dropOrphansIter n ts := by
  intro n
  induction n with
  | zero =>
    intro ts h
    have : ts = [] := List.length_eq_zero.mp (Nat.le_zero.mp h)
    subst this
    rfl
  | succ n ih =>
    intro ts h
    by_cases hfix : dropOrphans ts = ts
    · show dropOrphans (dropOrphansIter n (dropOrphans ts)) = dropOrphansIter n (dropOrphans ts)
      rw [hfix, dropOrphansIter_fixed n ts hfix]
      exact hfix
    · have hlt : (dropOrphans ts).length < ts.length := by
        have hle := (dropOrphans_sublist ts).length_le
        rcases lt_or_eq_of_le hle with h' | h'
        · exact h'
        · exact absurd ((dropOrphans_sublist ts).eq_of_length h') hfix
      exact ih (dropOrphans ts) (by omega)

theorem parentClosed_of_fixed {ts : List TaskRow} (h : dropOrphans ts = ts) :
    ∀ tk ∈ ts, ∀ p, tk.parentId = some p → hasTaskId ts p = true := by
  intro tk htk p hp
  have hmem : tk ∈ dropOrphans ts := by rw [h]; exact htk
  unfold dropOrphans at hmem
  have hpred := (List.mem_filter.mp hmem).2
  rw [hp] at hpred
  exact hpred

theorem cascadeDeleteTask_closed (ts : List TaskRow) (i : Nat) :
    ∀ tk ∈ cascadeDeleteTask ts i, ∀ p, tk.parentId = some p →
      hasTaskId (cascadeDeleteTask ts i) p = true := by
  unfold cascadeDeleteTask
  exact parentClosed_of_fixed
    (dropOrphansIter_fixpoint ts.length _ (List.length_filter_le _ _))

theorem cascadeDeleteTask_sub {ts : List TaskRow} {i : Nat} {tk : TaskRow}
    (htk : tk ∈ cascadeDeleteTask ts i) : tk ∈ ts ∧ tk.id ≠ i := by
  unfold cascadeDeleteTask at htk
  have h1 : tk ∈ ts.filter (fun x => x.id != i) :=
    (dropOrphansIter_sublist _ _).subset htk
  have h2 := List.mem_filter.mp h1
  refine ⟨h2.1, ?_⟩
  simpa using h2.2

theorem hasTaskId_iff {ts : List TaskRow} {x : Nat} :
    hasTaskId ts x = true ↔ ∃ u ∈ ts, u.id = x := by
  unfold hasTaskId
  simp [List.any_eq_true]

theorem cascadeDeleteTask_id_gone (ts : List TaskRow) (i : Nat) :
    hasTaskId (cascadeDeleteTask ts i) i = false := by
  rw [Bool.eq_false_iff]
  intro hc
  obtain ⟨u, hu, hui⟩ := hasTaskId_iff.mp hc
  exact (cascadeDeleteTask_sub hu).2 hui

theorem ancestor_hasTaskId {ts : List TaskRow} {a c : Nat}
    (h : IsAncestor ts a c)
    (hcl : ∀ tk ∈ ts, ∀ p, tk.parentId = some p → hasTaskId ts p = true) :
    hasTaskId ts a = true := by
  induction h with
  | parent htk hp => exact hcl _ htk _ hp
  | step htk hp hanc ih => exact ih

theorem cascadeDeleteTask_desc_removed (ts : List TaskRow) (i : Nat)
    (hnd : (ts.map TaskRow.id).Nodup) :
    ∀ d, IsAncestor ts i d → hasTaskId (cascadeDeleteTask ts i) d = false := by
  intro d h
  induction h with
  | @parent tk a htk hp =>
    rw [Bool.eq_false_iff]
    intro hc
    obtain ⟨u, hu, hui⟩ := hasTaskId_iff.mp hc
    have hut : u ∈ ts := (cascadeDeleteTask_sub hu).1
    have heq : u = tk := List.inj_on_of_nodup_map hnd hut htk hui
    subst heq
    have := cascadeDeleteTask_closed ts a u hu _ hp
    rw [cascadeDeleteTask_id_gone ts a] at this
    simp at this
  | @step tk p a htk hp hanc ih =>
    rw [Bool.eq_false_iff]
    intro hc
    obtain ⟨u, hu, hui⟩ := hasTaskId_iff.mp hc
    have hut : u ∈ ts := (cascadeDeleteTask_sub hu).1
    have heq : u = tk := List.inj_on_of_nodup_map hnd hut htk hui
    subst heq
    have := cascadeDeleteTask_closed ts a u hu _ hp
    rw [ih] at this
    simp at this

/-- C6: deleting a Work Item (relying on the declared
`ON DELETE CASCADE`) leaves zero reachable descendants: the deleted id is
gone, every remaining task's ancestors are live remaining tasks — never
the deleted item nor any of its former descendants — and every transitive
descendant of the deleted item is gone from the store. -/
theorem C6_cascade_delete (db : DBState) (args : TaskArgs) (tid : Nat)
    (hpr : checkEnum args.priority TASK_PRIORITIES "priority" = none)
    (hst : checkEnum args.status TASK_STATUSES "status" = none)
    (hid : args.id = some tid) (h0 : tid ≠ 0)
    (htk : ∃ tk, db.tasks.find? (fun x => x.id == tid) = some tk)
    (hnd : (db.tasks.map TaskRow.id).Nodup) :
    (taskDelete db args).1.tasks = cascadeDeleteTask db.tasks tid
    ∧ hasTaskId (taskDelete db args).1.tasks tid = false
    ∧ (∀ a c, IsAncestor (taskDelete db args).1.tasks a c →
        a ≠ tid ∧ ¬ IsAncestor db.tasks tid a)
    ∧ (∀ d, IsAncestor db.tasks tid d →
        hasTaskId (taskDelete db args).1.tasks d = false) := by
  obtain ⟨tk, hf⟩ := htk
  have hnt : natTruthy (some tid) = true := by simp [natTruthy, h0]
  have hres : (taskDelete db args).1.tasks = cascadeDeleteTask db.tasks tid := by
    simp [taskDelete, hpr, hst, hnt, hid, hf]
  refine ⟨hres, ?_, ?_, ?_⟩
  · rw [hres]
    exact cascadeDeleteTask_id_gone db.tasks tid
  · intro a c h
    rw [hres] at h
    have hmem := ancestor_hasTaskId h (cascadeDeleteTask_closed db.tasks tid)
    constructor
    · intro heq
      rw [heq, cascadeDeleteTask_id_gone db.tasks tid] at hmem
      simp at hmem
    · intro hanc
      rw [cascadeDeleteTask_desc_removed db.tasks tid hnd a hanc] at hmem
      simp at hmem
  · intro d hd
    rw [hres]
    exact cascadeDeleteTask_desc_removed db.tasks tid hnd d hd

/-- Witness store for the cascade: a chain `1 ← 2 ← 3` and an unrelated
task `4`. -/
def dbChainW : DBState :=
  { tasks := [{ id := 1, title := "a" },
              { id := 2, parentId := some 1, title := "b" },
              { id := 3, parentId := some 2, title := "c" },
              { id := 4, title := "d" }],
    globalCtx := some {} }

/-- C6 witness: the cascade theorem applied to deleting the chain root of
`dbChainW`. -/
theorem C6_cascade_delete_witness :
    (taskDelete dbChainW { id := some 1 }).1.tasks = cascadeDeleteTask dbChainW.tasks 1
    ∧ hasTaskId (taskDelete dbChainW { id := some 1 }).1.tasks 1 = false
    ∧ (∀ a c, IsAncestor (taskDelete dbChainW { id := some 1 }).1.tasks a c →
        a ≠ 1 ∧ ¬ IsAncestor dbChainW.tasks 1 a)
    ∧ (∀ d, IsAncestor dbChainW.tasks 1 d →
        hasTaskId (taskDelete dbChainW { id := some 1 }).1.tasks d = false) :=
  C6_cascade_delete dbChainW { id := some 1 } 1 (by decide) (by decide) rfl
    (by decide) ⟨{ id := 1, title := "a" }, by decide⟩ (by decide)

/-- The seeded technical-skill memory content (`SKILL_TECHNICAL`). -/
def SKILL_TECHNICAL : String :=
  "# Technical Project Descriptions\n\nFor software, hardware, and technology projects.\n\n## Core Rules\n\n1. **No title.** First line = short description (card preview uses truncation)\n2. **English** unless user specifies otherwise\n\n## First Line Format\n\n`[What it is/does]. Role: [ROLE] \u2014 [boundary explanation]`\n\nExamples:\n- \"Plugin for OpenCode providing LLM memory. Role: META \u2014 you develop code you execute.\"\n- \"CLI tool for database migrations. Role: EXECUTOR \u2014 you run migrations directly.\"\n- \"Internal API client library. Role: USER \u2014 you consume this to call external services.\"\n\n## Agent Roles\n\n| Role | Meaning | When |\n|------|---------|------|\n| **Executor** | Agent does the work | Scripts, automation, CLI tools |\n| **User** | Agent uses as tool | Libraries, APIs, plugins consumed |\n| **Meta** | Agent develops what it runs | Self-hosted, plugins for own env |\n\n## Document Structure\n\nFirst line - What it is + role (no heading)\n\nThen sections:\n- **Stack:** Technologies, frameworks, runtime\n- **Locations:** Dev path, runtime/deploy path\n- **Workflow:** Build, sync, deploy commands\n\nFollowed by numbered sections:\n- **1. Data Model** \u2014 Entities and relationships\n- **2-N. Patterns** \u2014 Project-specific conventions\n- **N+1. Reference** \u2014 Tools, commands, APIs\n- **N+2. Dependencies** \u2014 Where deps go, runtime context\n\n## Required Sections\n\n| Section | Purpose |\n|---------|---------|\n| First line | `[description]. Role: [ROLE] \u2014 [context]` |\n| Stack | Technologies used |\n| Locations | Dev and runtime paths |\n| Workflow | Commands to build/deploy |\n\n## Writing Guidelines\n\n1. **Be terse** \u2014 Bullets and code, no prose\n2. **Show, don't explain** \u2014 Code examples over descriptions\n3. **Mark critical** \u2014 Use **CRITICAL** or **Rule:** prefixes\n4. **Include gotchas** \u2014 \"Without X, Y won't work\"\n5. **Number sections** \u2014 After header, number all sections\n\n## Anti-patterns\n\n| Bad | Why | Good |\n|-----|-----|------|\n| `# Project Name` | Breaks card preview | Start with description |\n| \"This is a project...\" | Wastes tokens | \"Plugin for X that Y\" |\n| Missing role | Agent doesn't know boundaries | Include role in first line |\n| Prose paragraphs | Hard to scan | Bullets, tables, code |\n| Missing workflow | Agent can't build/test | Always include commands |"

/-- The seeded human-skill memory content (`SKILL_HUMAN`). -/
def SKILL_HUMAN : String :=
  "# Human Project Descriptions\n\nFor everything non-technical: recipes, hobbies, collections, personal organization, learning, creative projects.\n\n## Core Rules\n\n1. **No title.** First line = short description (card preview uses truncation)\n2. **English** unless user specifies otherwise\n3. **Agent guides, human executes** \u2014 Physical actions require human hands\n\n## First Line Format\n\n`[What it is/does]. Role: ADVISOR \u2014 [boundary explanation]`\n\nExamples:\n- \"Family recipes from three generations. Role: ADVISOR \u2014 you guide step-by-step, human cooks.\"\n- \"Personal finance tracking system. Role: ADVISOR \u2014 you analyze and guide, human decides.\"\n- \"Guitar learning journey. Role: ADVISOR \u2014 you structure practice, human plays.\"\n\n## Agent Role\n\n| Role | Meaning | When |\n|------|---------|------|\n| **Advisor** | Agent guides step-by-step, human executes physically | Always for non-technical projects |\n\n## Document Structure\n\nFirst line - What it is + role (no heading)\n\nThen sections:\n- **Domain:** Knowledge area, scope, context\n- **Conventions:** Rules, standards, preferences\n\nFollowed by numbered sections:\n- **1. Core Structure** \u2014 Main entity/concept breakdown\n- **2-N. Guidelines** \u2014 Project-specific patterns\n- **N+1. Resources** \u2014 References, sources, tools\n\n## Required Sections\n\n| Section | Purpose |\n|---------|---------|\n| First line | `[description]. Role: ADVISOR \u2014 [context]` |\n| Domain | Knowledge area and scope |\n| Conventions | Rules and preferences |\n\n## Writing Guidelines\n\n1. **Be specific** \u2014 \"until golden brown\" not \"cook until done\"\n2. **Include context** \u2014 Origin, why it matters, who taught it\n3. **Note variations** \u2014 Regional differences, substitutions\n4. **Visual cues** \u2014 What to look/smell/feel for\n5. **Number sections** \u2014 After header, number all sections\n\n## Anti-patterns\n\n| Bad | Why | Good |\n|-----|-----|------|\n| `# Project Name` | Breaks card preview | Start with description |\n| \"This is my collection of...\" | Wastes tokens | \"Family recipes from...\" |\n| Missing domain | No context for guidance | Specify area and scope |\n| Vague instructions | Can't guide properly | Step-by-step with cues |\n| Tech jargon | Wrong skill | Use Technical skill instead |"

/-- `CREATE TABLE IF NOT EXISTS projects` (current DDL: no
`context_summary` column). -/
def createProjectsTable (db : DBState) : DBState :=
  if db.hasProjectsTable then db
  else { db with hasProjectsTable := true, projects := [], hasProjectSummaryCol := false }

/-- `CREATE TABLE IF NOT EXISTS memories`. -/
def createMemoriesTable (db : DBState) : DBState :=
  if db.hasMemoriesTable then db
  else { db with hasMemoriesTable := true, memories := [], nextMemoryId := 1 }

/-- `CREATE TABLE IF NOT EXISTS global_context` (current DDL: with
`active_identity_id`, without the legacy text columns). -/
def createGlobalCtxTable (db : DBState) : DBState :=
  if db.hasGlobalCtxTable then db
  else { db with hasGlobalCtxTable := true, globalCtx := none,
                 hasLegacyGlobalCols := false, hasActiveIdentityCol := true }

/-- `INSERT OR IGNORE INTO global_context (id) VALUES (1)`: remaining
columns take their defaults (timestamps `now`, the rest NULL). -/
def insertGlobalCtxRow (db : DBState) (now : Nat) : DBState :=
  match db.globalCtx with
  | some _ => db
  | none => { db with globalCtx := some { createdAt := now, updatedAt := now } }

/-- `CREATE TABLE IF NOT EXISTS tasks` (current DDL: with `parent_id`). -/
def createTasksTable (db : DBState) : DBState :=
  if db.hasTasksTable then db
  else { db with hasTasksTable := true, tasks := [], nextTaskId := 1,
                 hasTasksParentCol := true }

/-- `CREATE TABLE IF NOT EXISTS tags`. -/
def createTagsTable (db : DBState) : DBState :=
  if db.hasTagsTable then db
  else { db with hasTagsTable := true, tags := [], nextTagId := 1 }

/-- `CREATE TABLE IF NOT EXISTS memory_tags`. -/
def createMemoryTagsTable (db : DBState) : DBState :=
  if db.hasMemoryTagsTable then db
  else { db with hasMemoryTagsTable := true, memoryTags := [] }

/-- `CREATE TABLE IF NOT EXISTS settings`. -/
def createSettingsTable (db : DBState) : DBState :=
  if db.hasSettingsTable then db
  else { db with hasSettingsTable := true, settings := [] }

/-- `CREATE TABLE IF NOT EXISTS memory_relations`. -/
def createMemoryRelationsTable (db : DBState) : DBState :=
  if db.hasMemoryRelationsTable then db
  else { db with hasMemoryRelationsTable := true, memoryRelations := [] }

/-- `ALTER TABLE global_context ADD COLUMN active_identity_id …` with the
error swallowed: a no-op when the column already exists, otherwise the
column appears with NULL on the existing row. -/
def alterAddActiveIdentityCol (db : DBState) : DBState :=
  if db.hasActiveIdentityCol then db
  else { db with hasActiveIdentityCol := true,
                 globalCtx := db.globalCtx.map (fun c => { c with activeIdentityId := none }) }

/-- `ALTER TABLE tasks ADD COLUMN parent_id …` with the error swallowed. -/
def alterAddTasksParentCol (db : DBState) : DBState :=
  if db.hasTasksParentCol then db
  else { db with hasTasksParentCol := true,
                 tasks := db.tasks.map (fun t => { t with parentId := none }) }

/-- `INSERT OR REPLACE INTO settings`: replaces the value under an
existing key in place, appends otherwise. -/
def setSettingInPlace (db : DBState) (k v : String) : DBState :=
  if db.settings.any (fun kv => kv.1 == k) then
    { db with settings := db.settings.map (fun kv => if kv.1 == k then (k, v) else kv) }
  else { db with settings := db.settings ++ [(k, v)] }

/-- Migration step: the legacy global `identity` text becomes an identity
memory and the `active_identity_id` pointer — guarded by a fresh read of
the pointer (check-before-insert). -/
def migrateIdentity (now : Nat) (identity : Option String) (db : DBState) : DBState :=
  if (identity.getD "") ≠ "" then
    match db.globalCtx with
    | none => db
    | some c =>
      match c.activeIdentityId with
      | some _ => db
      | none =>
        let identStr := identity.getD ""
        let firstLine := (trimStr ((identStr.splitOn "\n").headD "")).take 100
        let title := if firstLine = "" then "Default Identity" else firstLine
        let newId := db.nextMemoryId
        let row : MemoryRow :=
          { id := newId, type := "identity", title := title, content := identStr,
            status := "proven", permission := .guarded,
            createdAt := now, updatedAt := now }
        let db1 : DBState :=
          { db with memories := db.memories ++ [row], nextMemoryId := newId + 1 }
        { db1 with globalCtx := db1.globalCtx.map (fun c =>
            { c with activeIdentityId := some newId, updatedAt := now }) }
  else db

/-- Migration step: the parsed legacy `preferences` JSON maps onto the
three setting keys via `INSERT OR REPLACE`. -/
def applyPrefSetting (db : DBState) (k : String) (v : Option String) : DBState :=
  match v with
  | some s => setSettingInPlace db k s
  | none => db

def migratePrefs (prefs : Option (Option PrefsFields)) (db : DBState) : DBState :=
  match prefs with
  | some (some f) =>
    let db := applyPrefSetting db "default_memory_permission" f.defaultPermission
    let db := applyPrefSetting db "auto_create_tasks" f.autoCreateTasks
    applyPrefSetting db "search_default_limit" f.searchDefaultLimit
  | _ => db

/-- Migration step: the legacy global `context_summary` becomes a global
session-context memory (check-before-insert). -/
def migrateGlobalSummary (now : Nat) (cs : Option String) (db : DBState) : DBState :=
  if (cs.getD "") ≠ "" then
    if db.memories.any (fun m => m.type == "context" && m.projectId == none) then db
    else
      { db with
        memories := db.memories ++
          [{ id := db.nextMemoryId, type := "context", title := "Global Context",
             content := cs.getD "", status := "draft", permission := .«open»,
             createdAt := now, updatedAt := now }],
        nextMemoryId := db.nextMemoryId + 1 }
  else db

/-- Migration step for one project row carrying a legacy
`context_summary` (check-before-insert). -/
def migrateProjectSummary (now : Nat) (db : DBState) (pr : ProjectRow) : DBState :=
  match pr.contextSummary with
  | none => db
  | some cs =>
    if db.memories.any (fun m => m.type == "context" && m.projectId == some pr.id) then db
    else
      { db with
        memories := db.memories ++
          [{ id := db.nextMemoryId, projectId := some pr.id, type := "context",
             title := pr.name ++ " Context", content := cs, status := "draft",
             permission := .«open», createdAt := now, updatedAt := now }],
        nextMemoryId := db.nextMemoryId + 1 }

/-- `migrateFromV1`: reads the legacy `global_context` columns (the SELECT
fails when they do not exist — a fresh store — and the migration is
skipped), then converts identity, preferences, the global summary, and
per-project summaries, each step check-before-insert. -/
def migrateFromV1 (db : DBState) (now : Nat) : DBState :=
  if ¬ db.hasLegacyGlobalCols then db
  else
    match db.globalCtx with
    | none => db
    | some ctx =>
      let db := migrateIdentity now ctx.identity db
      let db := migratePrefs ctx.preferences db
      let db := migrateGlobalSummary now ctx.contextSummary db
      if ¬ db.hasProjectSummaryCol then db
      else db.projects.foldl (migrateProjectSummary now) db

/-- `DROP TABLE IF EXISTS memory_paths / milestones / goals`. -/
def dropLegacyTables (db : DBState) : DBState :=
  { db with hasMemoryPathsTable := false, hasMilestonesTable := false,
            hasGoalsTable := false }

/-- `CREATE INDEX IF NOT EXISTS`. -/
def addIdx (db : DBState) (n : String) : DBState :=
  if db.indexes.contains n then db else { db with indexes := db.indexes ++ [n] }

/-- `DROP INDEX IF EXISTS`. -/
def dropIdx (db : DBState) (n : String) : DBState :=
  { db with indexes := db.indexes.filter (fun i => i ≠ n) }

/-- The indexes `initializeDatabase` creates, in order. -/
def standardIndexNames : List String :=
  ["idx_memories_project", "idx_memories_type", "idx_memories_status",
   "idx_tasks_project", "idx_tasks_parent", "idx_tasks_status",
   "idx_memory_tags_memory", "idx_memory_tags_tag",
   "idx_memory_relations_memory", "idx_memory_relations_related",
   "idx_memories_project_type"]

/-- The index creations followed by the two legacy index drops. -/
def createStandardIndexes (db : DBState) : DBState :=
  let db := standardIndexNames.foldl addIdx db
  let db := dropIdx db "idx_memory_paths_segment"
  dropIdx db "idx_memory_paths_memory"

/-- The seeded settings defaults. -/
def seedSettingsDefaults : List (String × String) :=
  [("default_identity", "null"),
   ("force_identity_on_hud", "false"),
   ("ask_before_identity_injection", "true"),
   ("default_memory_permission", "guarded"),
   ("auto_create_tasks", "false"),
   ("search_default_limit", "20"),
   ("activate_identity_on_save", "false"),
   ("dangerously_skip_memory_permission", "false")]

/-- `INSERT OR IGNORE INTO settings`. -/
def insertSetting (db : DBState) (kv : String × String) : DBState :=
  if db.settings.any (fun s => s.1 == kv.1) then db
  else { db with settings := db.settings ++ [kv] }

/-- `seedSettings`: `INSERT OR IGNORE` of each default, preserving values
migrated from v1 preferences. -/
def seedSettings (db : DBState) : DBState :=
  seedSettingsDefaults.foldl insertSetting db

/-- One skill seed: `INSERT … WHERE NOT EXISTS` on title and type. -/
def insertSkillMemory (now : Nat) (title content : String) (db : DBState) : DBState :=
  if db.memories.any (fun m => m.title == title && m.type == "skill") then db
  else
    { db with
      memories := db.memories ++
        [{ id := db.nextMemoryId, type := "skill", title := title, content := content,
           status := "proven", permission := .read_only,
           createdAt := now, updatedAt := now }],
      nextMemoryId := db.nextMemoryId + 1 }

/-- `INSERT OR IGNORE INTO tags (name)`. -/
def insertTag (db : DBState) (n : String) : DBState :=
  if db.tags.any (fun t => t.2 == n) then db
  else { db with tags := db.tags ++ [(db.nextTagId, n)], nextTagId := db.nextTagId + 1 }

/-- The seeded core tag names, in insert order. -/
def coreTagNames : List String :=
  ["system", "core", "minni", "projects", "description", "technical", "human"]

/-- Tag names linked to the technical skill. -/
def techTagNames : List String :=
  ["system", "core", "minni", "projects", "description", "technical"]

/-- Tag names linked to the human skill. -/
def humanTagNames : List String :=
  ["system", "core", "minni", "projects", "description", "human"]

/-- `INSERT OR IGNORE INTO memory_tags SELECT m.id, t.id …`: the cartesian
pairs of matching skill memories and named tags, inserted if absent. -/
def linkSkillTags (db : DBState) (title : String) (names : List String) : DBState :=
  let pairs := (db.memories.filter (fun m => m.title == title && m.type == "skill")).flatMap
    (fun m => (db.tags.filter (fun t => names.contains t.2)).map (fun t => (m.id, t.1)))
  pairs.foldl (fun d pr =>
    if d.memoryTags.contains pr then d else { d with memoryTags := d.memoryTags ++ [pr] }) db

/-- `seedSkills`: the two skill memories, the core tags, and their
links. -/
def seedSkills (db : DBState) (now : Nat) : DBState :=
  let db := insertSkillMemory now "Technical Project Descriptions" SKILL_TECHNICAL db
  let db := insertSkillMemory now "Human Project Descriptions" SKILL_HUMAN db
  let db := coreTagNames.foldl insertTag db
  let db := linkSkillTags db "Technical Project Descriptions" techTagNames
  linkSkillTags db "Human Project Descriptions" humanTagNames

/-- `initializeDatabase`: table creation in dependency order, the
singleton context row, legacy column additions, the v1 migration, legacy
table drops, indexes, and the seeds — each step idempotent by
construction. -/
def initializeDatabase (db : DBState) (now : Nat) : DBState :=
  let db := createProjectsTable db
  let db := createMemoriesTable db
  let db := createGlobalCtxTable db
  let db := insertGlobalCtxRow db now
  let db := createTasksTable db
  let db := createTagsTable db
  let db := createMemoryTagsTable db
  let db := createSettingsTable db
  let db := createMemoryRelationsTable db
  let db := alterAddActiveIdentityCol db
  let db := alterAddTasksParentCol db
  let db := migrateFromV1 db now
  let db := dropLegacyTables db
  let db := createStandardIndexes db
  let db := seedSettings db
  seedSkills db now

/-- All eight current-generation tables exist. -/
def TablesReady (db : DBState) : Prop :=
  db.hasProjectsTable = true ∧ db.hasMemoriesTable = true
  ∧ db.hasGlobalCtxTable = true ∧ db.hasTasksTable = true
  ∧ db.hasTagsTable = true ∧ db.hasMemoryTagsTable = true
  ∧ db.hasSettingsTable = true ∧ db.hasMemoryRelationsTable = true

/-- The generation-dependent columns exist. -/
def ColsReady (db : DBState) : Prop :=
  db.hasActiveIdentityCol = true ∧ db.hasTasksParentCol = true

/-- The legacy tables are gone. -/
def LegacyDropped (db : DBState) : Prop :=
  db.hasMemoryPathsTable = false ∧ db.hasMilestonesTable = false
  ∧ db.hasGoalsTable = false

/-- The setting `k` exists and every row under it holds `v`. -/
def SettingFixed (db : DBState) (k v : String) : Prop :=
  (∀ kv ∈ db.settings, kv.1 = k → kv.2 = v)
  ∧ db.settings.any (fun kv => kv.1 == k) = true

/-- Every check-before-insert of `migrateFromV1` finds its row, so a
re-run writes nothing. -/
def MigrateNoop (db : DBState) : Prop :=
  db.hasLegacyGlobalCols = true →
  ∀ c, db.globalCtx = some c →
    ((c.identity.getD "") ≠ "" → c.activeIdentityId.isSome = true)
    ∧ (∀ f, c.preferences = some (some f) →
        (∀ v, f.defaultPermission = some v →
          SettingFixed db "default_memory_permission" v)
        ∧ (∀ v, f.autoCreateTasks = some v → SettingFixed db "auto_create_tasks" v)
        ∧ (∀ v, f.searchDefaultLimit = some v →
          SettingFixed db "search_default_limit" v))
    ∧ ((c.contextSummary.getD "") ≠ "" →
        db.memories.any (fun m => m.type == "context" && m.projectId == none) = true)
    ∧ (db.hasProjectSummaryCol = true → ∀ pr ∈ db.projects, ∀ cs,
        pr.contextSummary = some cs →
        db.memories.any (fun m => m.type == "context" && m.projectId == some pr.id) = true)

/-- The standard indexes exist and the legacy ones are gone. -/
def IndexesReady (db : DBState) : Prop :=
  (∀ n ∈ standardIndexNames, n ∈ db.indexes)
  ∧ "idx_memory_paths_segment" ∉ db.indexes
  ∧ "idx_memory_paths_memory" ∉ db.indexes

/-- Every seeded setting key exists. -/
def SettingsSeeded (db : DBState) : Prop :=
  ∀ kv ∈ seedSettingsDefaults, db.settings.any (fun s => s.1 == kv.1) = true

/-- Every pair the skill-tag link statement would generate is present. -/
def LinksSeeded (db : DBState) (title : String) (names : List String) : Prop :=
  ∀ m ∈ db.memories, (m.title == title && m.type == "skill") = true →
    ∀ t ∈ db.tags, names.contains t.2 = true → (m.id, t.1) ∈ db.memoryTags

/-- The skill memories, core tags and their links are all present. -/
def SkillsSeeded (db : DBState) : Prop :=
  db.memories.any (fun m =>
    m.title == "Technical Project Descriptions" && m.type == "skill") = true
  ∧ db.memories.any (fun m =>
    m.title == "Human Project Descriptions" && m.type == "skill") = true
  ∧ (∀ n ∈ coreTagNames, db.tags.any (fun t => t.2 == n) = true)
  ∧ LinksSeeded db "Technical Project Descriptions" techTagNames
  ∧ LinksSeeded db "Human Project Descriptions" humanTagNames

/-- Everything `initializeDatabase` establishes: a second run writes
nothing. -/
def Initialized (db : DBState) : Prop :=
  TablesReady db ∧ db.globalCtx.isSome = true ∧ ColsReady db
  ∧ LegacyDropped db ∧ MigrateNoop db ∧ IndexesReady db
  ∧ SettingsSeeded db ∧ SkillsSeeded db

theorem foldl_noop {α β : Type} (f : β → α → β) (b : β) (l : List α)
    (h : ∀ x ∈ l, f b x = b) : l.foldl f b = b := by
  induction l with
  | nil => rfl
  | cons x xs ih =>
    rw [List.foldl_cons, h x (List.mem_cons_self x xs)]
    exact ih (fun y hy => h y (List.mem_cons_of_mem x hy))

theorem map_fix {α : Type} (f : α → α) (l : List α) (h : ∀ x ∈ l, f x = x) :
    l.map f = l := by
  induction l with
  | nil => rfl
  | cons x xs ih =>
    rw [List.map_cons, h x (List.mem_cons_self x xs)]
    rw [ih (fun y hy => h y (List.mem_cons_of_mem x hy))]

theorem any_append_left {α : Type} (l l' : List α) (p : α → Bool)
    (h : l.any p = true) : (l ++ l').any p = true := by
  rw [List.any_append, h, Bool.true_or]

theorem createProjectsTable_noop {db : DBState} (h : db.hasProjectsTable = true) :
    createProjectsTable db = db := by
  simp [createProjectsTable, h]

theorem createMemoriesTable_noop {db : DBState} (h : db.hasMemoriesTable = true) :
    createMemoriesTable db = db := by
  simp [createMemoriesTable, h]

theorem createGlobalCtxTable_noop {db : DBState} (h : db.hasGlobalCtxTable = true) :
    createGlobalCtxTable db = db := by
  simp [createGlobalCtxTable, h]

theorem insertGlobalCtxRow_noop {db : DBState} {now : Nat}
    (h : db.globalCtx.isSome = true) : insertGlobalCtxRow db now = db := by
  unfold insertGlobalCtxRow
  cases hc : db.globalCtx with
  | none => rw [hc] at h; simp at h
  | some c => rfl

theorem createTasksTable_noop {db : DBState} (h : db.hasTasksTable = true) :
    createTasksTable db = db := by
  simp [createTasksTable, h]

theorem createTagsTable_noop {db : DBState} (h : db.hasTagsTable = true) :
    createTagsTable db = db := by
  simp [createTagsTable, h]

theorem createMemoryTagsTable_noop {db : DBState} (h : db.hasMemoryTagsTable = true) :
    createMemoryTagsTable db = db := by
  simp [createMemoryTagsTable, h]

theorem createSettingsTable_noop {db : DBState} (h : db.hasSettingsTable = true) :
    createSettingsTable db = db := by
  simp [createSettingsTable, h]

theorem createMemoryRelationsTable_noop {db : DBState}
    (h : db.hasMemoryRelationsTable = true) : createMemoryRelationsTable db = db := by
  simp [createMemoryRelationsTable, h]

theorem alterAddActiveIdentityCol_noop {db : DBState}
    (h : db.hasActiveIdentityCol = true) : alterAddActiveIdentityCol db = db := by
  simp [alterAddActiveIdentityCol, h]

theorem alterAddTasksParentCol_noop {db : DBState}
    (h : db.hasTasksParentCol = true) : alterAddTasksParentCol db = db := by
  simp [alterAddTasksParentCol, h]

theorem dropLegacyTables_noop {db : DBState} (h : LegacyDropped db) :
    dropLegacyTables db = db := by
  obtain ⟨h1, h2, h3⟩ := h
  cases db
  simp_all [dropLegacyTables]

theorem addIdx_noop {db : DBState} {n : String} (h : n ∈ db.indexes) :
    addIdx db n = db := by
  simp [addIdx, h]

theorem dropIdx_noop {db : DBState} {n : String} (h : n ∉ db.indexes) :
    dropIdx db n = db := by
  unfold dropIdx
  rw [List.filter_eq_self.mpr]
  · intro a ha
    simp only [decide_eq_true_eq, ne_eq]
    intro heq
    exact h (heq ▸ ha)

theorem insertSetting_noop {db : DBState} {kv : String × String}
    (h : db.settings.any (fun s => s.1 == kv.1) = true) : insertSetting db kv = db := by
  simp [insertSetting, h]

theorem setSettingInPlace_noop {db : DBState} {k v : String}
    (h : SettingFixed db k v) : setSettingInPlace db k v = db := by
  unfold setSettingInPlace
  rw [if_pos h.2]
  rw [map_fix]
  · intro kv hkv
    by_cases hk : kv.1 = k
    · have hv := h.1 kv hkv hk
      simp only [hk, beq_self_eq_true, if_pos]
      rw [← hk, ← hv]
    · simp [hk]

theorem insertSkillMemory_noop {db : DBState} {now : Nat} {title content : String}
    (h : db.memories.any (fun m => m.title == title && m.type == "skill") = true) :
    insertSkillMemory now title content db = db := by
  simp [insertSkillMemory, h]

theorem insertTag_noop {db : DBState} {n : String}
    (h : db.tags.any (fun t => t.2 == n) = true) : insertTag db n = db := by
  simp [insertTag, h]

theorem linkSkillTags_noop {db : DBState} {title : String} {names : List String}
    (h : LinksSeeded db title names) : linkSkillTags db title names = db := by
  unfold linkSkillTags
  apply foldl_noop
  intro pr hpr
  simp only [List.mem_flatMap, List.mem_filter, List.mem_map] at hpr
  obtain ⟨m, ⟨hm, hmp⟩, t, ⟨ht, htp⟩, rfl⟩ := hpr
  have hmem := h m hm hmp t ht htp
  simp [hmem]

theorem seedSettings_noop {db : DBState} (h : SettingsSeeded db) :
    seedSettings db = db := by
  unfold seedSettings
  exact foldl_noop _ _ _ (fun kv hkv => insertSetting_noop (h kv hkv))

theorem seedSkills_noop {db : DBState} {now : Nat} (h : SkillsSeeded db) :
    seedSkills db now = db := by
  obtain ⟨h1, h2, h3, h4, h5⟩ := h
  unfold seedSkills
  dsimp only
  rw [insertSkillMemory_noop h1, insertSkillMemory_noop h2,
    foldl_noop _ _ _ (fun n hn => insertTag_noop (h3 n hn)),
    linkSkillTags_noop h4, linkSkillTags_noop h5]

theorem createStandardIndexes_noop {db : DBState} (h : IndexesReady db) :
    createStandardIndexes db = db := by
  obtain ⟨h1, h2, h3⟩ := h
  unfold createStandardIndexes
  dsimp only
  rw [foldl_noop _ _ _ (fun n hn => addIdx_noop (h1 n hn)),
    dropIdx_noop h2, dropIdx_noop h3]

theorem migrateIdentity_noop {db : DBState} {now : Nat} {identity : Option String}
    (h : (identity.getD "") ≠ "" → ∀ c, db.globalCtx = some c →
      c.activeIdentityId.isSome = true) :
    migrateIdentity now identity db = db := by
  unfold migrateIdentity
  by_cases hi : (identity.getD "") ≠ ""
  · rw [if_pos hi]
    cases hc : db.globalCtx with
    | none => rfl
    | some c =>
      have := h hi c hc
      dsimp only
      cases hai : c.activeIdentityId with
      | some x => rfl
      | none => rw [hai] at this; simp at this
  · rw [if_neg hi]

theorem applyPrefSetting_noop {db : DBState} {k : String} {v : Option String}
    (h : ∀ s, v = some s → SettingFixed db k s) : applyPrefSetting db k v = db := by
  unfold applyPrefSetting
  cases hv : v with
  | none => rfl
  | some s => exact setSettingInPlace_noop (h s hv)

theorem migratePrefs_noop {db : DBState} {prefs : Option (Option PrefsFields)}
    (h : ∀ f, prefs = some (some f) →
      (∀ v, f.defaultPermission = some v → SettingFixed db "default_memory_permission" v)
      ∧ (∀ v, f.autoCreateTasks = some v → SettingFixed db "auto_create_tasks" v)
      ∧ (∀ v, f.searchDefaultLimit = some v → SettingFixed db "search_default_limit" v)) :
    migratePrefs prefs db = db := by
  unfold migratePrefs
  match prefs with
  | none => rfl
  | some none => rfl
  | some (some f) =>
    obtain ⟨h1, h2, h3⟩ := h f rfl
    dsimp only
    rw [applyPrefSetting_noop h1, applyPrefSetting_noop h2, applyPrefSetting_noop h3]

theorem migrateGlobalSummary_noop {db : DBState} {now : Nat} {cs : Option String}
    (h : (cs.getD "") ≠ "" →
      db.memories.any (fun m => m.type == "context" && m.projectId == none) = true) :
    migrateGlobalSummary now cs db = db := by
  unfold migrateGlobalSummary
  by_cases hcs : (cs.getD "") ≠ ""
  · rw [if_pos hcs, if_pos (h hcs)]
  · rw [if_neg hcs]

theorem migrateProjectSummary_noop {db : DBState} {now : Nat} {pr : ProjectRow}
    (h : ∀ cs, pr.contextSummary = some cs →
      db.memories.any (fun m => m.type == "context" && m.projectId == some pr.id) = true) :
    migrateProjectSummary now db pr = db := by
  unfold migrateProjectSummary
  cases hcs : pr.contextSummary with
  | none => rfl
  | some cs =>
    dsimp only
    rw [if_pos (h cs hcs)]

theorem migrateFromV1_noop {db : DBState} {now : Nat} (h : MigrateNoop db) :
    migrateFromV1 db now = db := by
  unfold migrateFromV1
  by_cases hl : db.hasLegacyGlobalCols = true
  · rw [if_neg (by simp [hl])]
    dsimp only
    cases hc : db.globalCtx with
    | none => rfl
    | some c =>
      obtain ⟨hi, hp, hs, hproj⟩ := h hl c hc
      dsimp only
      rw [migrateIdentity_noop (fun ht c' hc' => by
        rw [hc] at hc'
        cases hc'
        exact hi ht)]
      rw [migratePrefs_noop hp]
      rw [migrateGlobalSummary_noop hs]
      by_cases hcol : db.hasProjectSummaryCol = true
      · rw [if_neg (by simp [hcol])]
        exact foldl_noop _ _ _ (fun pr hpr =>
          migrateProjectSummary_noop (fun cs hcs => hproj hcol pr hpr cs hcs))
      · rw [if_pos (by simpa using hcol)]
  · rw [if_pos (by simpa using hl)]

theorem foldl_pres_prop {α β : Type} (f : β → α → β) (Q : β → Prop)
    (hmono : ∀ b x, Q b → Q (f b x)) :
    ∀ (l : List α) (b : β), Q b → Q (l.foldl f b) := by
  intro l
  induction l with
  | nil => intro b hb; exact hb
  | cons a as ih =>
    intro b hb
    rw [List.foldl_cons]
    exact ih (f b a) (hmono b a hb)

theorem foldl_establish {α β : Type} (f : β → α → β) (P : α → β → Prop)
    (hstep : ∀ b x, P x (f b x)) (hmono : ∀ b x y, P y b → P y (f b x)) :
    ∀ (l : List α) (b : β) (x : α), x ∈ l → P x (l.foldl f b) := by
  intro l
  induction l with
  | nil => intro b x hx; cases hx
  | cons a as ih =>
    intro b x hx
    rw [List.foldl_cons]
    rcases List.mem_cons.mp hx with rfl | hx'
    · exact foldl_pres_prop f (P x) (fun b' y hq => hmono b' y x hq) as (f b x) (hstep b x)
    · exact ih (f b a) x hx'

theorem foldl_proj_eq {α β γ : Type} (f : β → α → β) (g : β → γ)
    (h : ∀ b x, g (f b x) = g b) :
    ∀ (l : List α) (b : β), g (l.foldl f b) = g b := by
  intro l
  induction l with
  | nil => intro b; rfl
  | cons a as ih => intro b; rw [List.foldl_cons, ih, h]

theorem initializeDatabase_noop {db : DBState} {now : Nat} (h : Initialized db) :
    initializeDatabase db now = db := by
  obtain ⟨⟨t1, t2, t3, t4, t5, t6, t7, t8⟩, hg, ⟨c1, c2⟩, hd, hm, hx, hs, hk⟩ := h
  unfold initializeDatabase
  dsimp only
  rw [createProjectsTable_noop t1, createMemoriesTable_noop t2,
    createGlobalCtxTable_noop t3, insertGlobalCtxRow_noop hg,
    createTasksTable_noop t4, createTagsTable_noop t5,
    createMemoryTagsTable_noop t6, createSettingsTable_noop t7,
    createMemoryRelationsTable_noop t8, alterAddActiveIdentityCol_noop c1,
    alterAddTasksParentCol_noop c2, migrateFromV1_noop hm,
    dropLegacyTables_noop hd, createStandardIndexes_noop hx,
    seedSettings_noop hs, seedSkills_noop hk]

theorem createProjectsTable_self (db : DBState) :
    (createProjectsTable db).hasProjectsTable = true := by
  unfold createProjectsTable; split <;> simp_all

theorem createProjectsTable_frame (db : DBState) :
    (createProjectsTable db).hasMemoriesTable = db.hasMemoriesTable
    ∧ (createProjectsTable db).hasGlobalCtxTable = db.hasGlobalCtxTable
    ∧ (createProjectsTable db).hasTasksTable = db.hasTasksTable
    ∧ (createProjectsTable db).hasTagsTable = db.hasTagsTable
    ∧ (createProjectsTable db).hasMemoryTagsTable = db.hasMemoryTagsTable
    ∧ (createProjectsTable db).hasSettingsTable = db.hasSettingsTable
    ∧ (createProjectsTable db).hasMemoryRelationsTable = db.hasMemoryRelationsTable := by
  unfold createProjectsTable; split <;> simp

theorem createMemoriesTable_self (db : DBState) :
    (createMemoriesTable db).hasMemoriesTable = true := by
  unfold createMemoriesTable; split <;> simp_all

theorem createMemoriesTable_frame (db : DBState) :
    (createMemoriesTable db).hasProjectsTable = db.hasProjectsTable
    ∧ (createMemoriesTable db).hasGlobalCtxTable = db.hasGlobalCtxTable
    ∧ (createMemoriesTable db).hasTasksTable = db.hasTasksTable
    ∧ (createMemoriesTable db).hasTagsTable = db.hasTagsTable
    ∧ (createMemoriesTable db).hasMemoryTagsTable = db.hasMemoryTagsTable
    ∧ (createMemoriesTable db).hasSettingsTable = db.hasSettingsTable
    ∧ (createMemoriesTable db).hasMemoryRelationsTable = db.hasMemoryRelationsTable := by
  unfold createMemoriesTable; split <;> simp

theorem createGlobalCtxTable_self (db : DBState) :
    (createGlobalCtxTable db).hasGlobalCtxTable = true := by
  unfold createGlobalCtxTable; split <;> simp_all

theorem createGlobalCtxTable_frame (db : DBState) :
    (createGlobalCtxTable db).hasProjectsTable = db.hasProjectsTable
    ∧ (createGlobalCtxTable db).hasMemoriesTable = db.hasMemoriesTable
    ∧ (createGlobalCtxTable db).hasTasksTable = db.hasTasksTable
    ∧ (createGlobalCtxTable db).hasTagsTable = db.hasTagsTable
    ∧ (createGlobalCtxTable db).hasMemoryTagsTable = db.hasMemoryTagsTable
    ∧ (createGlobalCtxTable db).hasSettingsTable = db.hasSettingsTable
    ∧ (createGlobalCtxTable db).hasMemoryRelationsTable = db.hasMemoryRelationsTable := by
  unfold createGlobalCtxTable; split <;> simp

theorem insertGlobalCtxRow_post (db : DBState) (now : Nat) :
    (insertGlobalCtxRow db now).globalCtx.isSome = true := by
  unfold insertGlobalCtxRow
  cases h : db.globalCtx <;> simp_all

theorem insertGlobalCtxRow_shape (db : DBState) (now : Nat) :
    ∃ g, insertGlobalCtxRow db now = { db with globalCtx := g } := by
  unfold insertGlobalCtxRow
  cases hg : db.globalCtx with
  | none => exact ⟨some { createdAt := now, updatedAt := now }, rfl⟩
  | some c => exact ⟨db.globalCtx, rfl⟩

theorem createTasksTable_self (db : DBState) :
    (createTasksTable db).hasTasksTable = true := by
  unfold createTasksTable; split <;> simp_all

theorem createTasksTable_frame (db : DBState) :
    (createTasksTable db).hasProjectsTable = db.hasProjectsTable
    ∧ (createTasksTable db).hasMemoriesTable = db.hasMemoriesTable
    ∧ (createTasksTable db).hasGlobalCtxTable = db.hasGlobalCtxTable
    ∧ (createTasksTable db).hasTagsTable = db.hasTagsTable
    ∧ (createTasksTable db).hasMemoryTagsTable = db.hasMemoryTagsTable
    ∧ (createTasksTable db).hasSettingsTable = db.hasSettingsTable
    ∧ (createTasksTable db).hasMemoryRelationsTable = db.hasMemoryRelationsTable
    ∧ (createTasksTable db).globalCtx = db.globalCtx := by
  unfold createTasksTable; split <;> simp

theorem createTagsTable_self (db : DBState) :
    (createTagsTable db).hasTagsTable = true := by
  unfold createTagsTable; split <;> simp_all

theorem createTagsTable_frame (db : DBState) :
    (createTagsTable db).hasProjectsTable = db.hasProjectsTable
    ∧ (createTagsTable db).hasMemoriesTable = db.hasMemoriesTable
    ∧ (createTagsTable db).hasGlobalCtxTable = db.hasGlobalCtxTable
    ∧ (createTagsTable db).hasTasksTable = db.hasTasksTable
    ∧ (createTagsTable db).hasMemoryTagsTable = db.hasMemoryTagsTable
    ∧ (createTagsTable db).hasSettingsTable = db.hasSettingsTable
    ∧ (createTagsTable db).hasMemoryRelationsTable = db.hasMemoryRelationsTable
    ∧ (createTagsTable db).globalCtx = db.globalCtx := by
  unfold createTagsTable; split <;> simp

theorem createMemoryTagsTable_self (db : DBState) :
    (createMemoryTagsTable db).hasMemoryTagsTable = true := by
  unfold createMemoryTagsTable; split <;> simp_all

theorem createMemoryTagsTable_frame (db : DBState) :
    (createMemoryTagsTable db).hasProjectsTable = db.hasProjectsTable
    ∧ (createMemoryTagsTable db).hasMemoriesTable = db.hasMemoriesTable
    ∧ (createMemoryTagsTable db).hasGlobalCtxTable = db.hasGlobalCtxTable
    ∧ (createMemoryTagsTable db).hasTasksTable = db.hasTasksTable
    ∧ (createMemoryTagsTable db).hasTagsTable = db.hasTagsTable
    ∧ (createMemoryTagsTable db).hasSettingsTable = db.hasSettingsTable
    ∧ (createMemoryTagsTable db).hasMemoryRelationsTable = db.hasMemoryRelationsTable
    ∧ (createMemoryTagsTable db).globalCtx = db.globalCtx := by
  unfold createMemoryTagsTable; split <;> simp

theorem createSettingsTable_self (db : DBState) :
    (createSettingsTable db).hasSettingsTable = true := by
  unfold createSettingsTable; split <;> simp_all

theorem createSettingsTable_frame (db : DBState) :
    (createSettingsTable db).hasProjectsTable = db.hasProjectsTable
    ∧ (createSettingsTable db).hasMemoriesTable = db.hasMemoriesTable
    ∧ (createSettingsTable db).hasGlobalCtxTable = db.hasGlobalCtxTable
    ∧ (createSettingsTable db).hasTasksTable = db.hasTasksTable
    ∧ (createSettingsTable db).hasTagsTable = db.hasTagsTable
    ∧ (createSettingsTable db).hasMemoryTagsTable = db.hasMemoryTagsTable
    ∧ (createSettingsTable db).hasMemoryRelationsTable = db.hasMemoryRelationsTable
    ∧ (createSettingsTable db).globalCtx = db.globalCtx := by
  unfold createSettingsTable; split <;> simp

theorem createMemoryRelationsTable_self (db : DBState) :
    (createMemoryRelationsTable db).hasMemoryRelationsTable = true := by
  unfold createMemoryRelationsTable; split <;> simp_all

theorem createMemoryRelationsTable_frame (db : DBState) :
    (createMemoryRelationsTable db).hasProjectsTable = db.hasProjectsTable
    ∧ (createMemoryRelationsTable db).hasMemoriesTable = db.hasMemoriesTable
    ∧ (createMemoryRelationsTable db).hasGlobalCtxTable = db.hasGlobalCtxTable
    ∧ (createMemoryRelationsTable db).hasTasksTable = db.hasTasksTable
    ∧ (createMemoryRelationsTable db).hasTagsTable = db.hasTagsTable
    ∧ (createMemoryRelationsTable db).hasMemoryTagsTable = db.hasMemoryTagsTable
    ∧ (createMemoryRelationsTable db).hasSettingsTable = db.hasSettingsTable
    ∧ (createMemoryRelationsTable db).globalCtx = db.globalCtx := by
  unfold createMemoryRelationsTable; split <;> simp

theorem alterAddActiveIdentityCol_self (db : DBState) :
    (alterAddActiveIdentityCol db).hasActiveIdentityCol = true := by
  unfold alterAddActiveIdentityCol; split <;> simp_all

theorem alterAddActiveIdentityCol_frame (db : DBState) :
    (alterAddActiveIdentityCol db).hasProjectsTable = db.hasProjectsTable
    ∧ (alterAddActiveIdentityCol db).hasMemoriesTable = db.hasMemoriesTable
    ∧ (alterAddActiveIdentityCol db).hasGlobalCtxTable = db.hasGlobalCtxTable
    ∧ (alterAddActiveIdentityCol db).hasTasksTable = db.hasTasksTable
    ∧ (alterAddActiveIdentityCol db).hasTagsTable = db.hasTagsTable
    ∧ (alterAddActiveIdentityCol db).hasMemoryTagsTable = db.hasMemoryTagsTable
    ∧ (alterAddActiveIdentityCol db).hasSettingsTable = db.hasSettingsTable
    ∧ (alterAddActiveIdentityCol db).hasMemoryRelationsTable = db.hasMemoryRelationsTable
    ∧ (alterAddActiveIdentityCol db).globalCtx.isSome = db.globalCtx.isSome := by
  unfold alterAddActiveIdentityCol; split <;> simp

theorem alterAddTasksParentCol_self (db : DBState) :
    (alterAddTasksParentCol db).hasTasksParentCol = true := by
  unfold alterAddTasksParentCol; split <;> simp_all

theorem alterAddTasksParentCol_frame (db : DBState) :
    (alterAddTasksParentCol db).hasProjectsTable = db.hasProjectsTable
    ∧ (alterAddTasksParentCol db).hasMemoriesTable = db.hasMemoriesTable
    ∧ (alterAddTasksParentCol db).hasGlobalCtxTable = db.hasGlobalCtxTable
    ∧ (alterAddTasksParentCol db).hasTasksTable = db.hasTasksTable
    ∧ (alterAddTasksParentCol db).hasTagsTable = db.hasTagsTable
    ∧ (alterAddTasksParentCol db).hasMemoryTagsTable = db.hasMemoryTagsTable
    ∧ (alterAddTasksParentCol db).hasSettingsTable = db.hasSettingsTable
    ∧ (alterAddTasksParentCol db).hasMemoryRelationsTable = db.hasMemoryRelationsTable
    ∧ (alterAddTasksParentCol db).globalCtx = db.globalCtx
    ∧ (alterAddTasksParentCol db).hasActiveIdentityCol = db.hasActiveIdentityCol := by
  unfold alterAddTasksParentCol; split <;> simp

theorem setSettingInPlace_shape (db : DBState) (k v : String) :
    ∃ s, setSettingInPlace db k v = { db with settings := s } := by
  unfold setSettingInPlace
  split
  · exact ⟨_, rfl⟩
  · exact ⟨_, rfl⟩

theorem applyPrefSetting_shape (db : DBState) (k : String) (ov : Option String) :
    ∃ s, applyPrefSetting db k ov = { db with settings := s } := by
  unfold applyPrefSetting
  cases ov with
  | none => exact ⟨db.settings, rfl⟩
  | some s => exact setSettingInPlace_shape db k s

theorem migratePrefs_shape (prefs : Option (Option PrefsFields)) (db : DBState) :
    ∃ s, migratePrefs prefs db = { db with settings := s } := by
  unfold migratePrefs
  match prefs with
  | none => exact ⟨db.settings, rfl⟩
  | some none => exact ⟨db.settings, rfl⟩
  | some (some f) =>
    dsimp only
    obtain ⟨s1, h1⟩ := applyPrefSetting_shape db "default_memory_permission" f.defaultPermission
    rw [h1]
    obtain ⟨s2, h2⟩ := applyPrefSetting_shape { db with settings := s1 } "auto_create_tasks"
      f.autoCreateTasks
    rw [h2]
    obtain ⟨s3, h3⟩ := applyPrefSetting_shape { db with settings := s2 } "search_default_limit"
      f.searchDefaultLimit
    rw [h3]
    exact ⟨s3, rfl⟩

theorem migrateIdentity_shape (now : Nat) (idn : Option String) (db : DBState) :
    ∃ m n g, migrateIdentity now idn db
      = { db with memories := m, nextMemoryId := n, globalCtx := g } := by
  unfold migrateIdentity
  split
  · cases hg : db.globalCtx with
    | none => exact ⟨db.memories, db.nextMemoryId, db.globalCtx, rfl⟩
    | some c =>
      dsimp only
      cases c.activeIdentityId with
      | some x => exact ⟨db.memories, db.nextMemoryId, db.globalCtx, rfl⟩
      | none => exact ⟨_, _, _, rfl⟩
  · exact ⟨db.memories, db.nextMemoryId, db.globalCtx, rfl⟩

theorem migrateGlobalSummary_shape (now : Nat) (cs : Option String) (db : DBState) :
    ∃ m n, migrateGlobalSummary now cs db
      = { db with memories := m, nextMemoryId := n } := by
  unfold migrateGlobalSummary
  split
  · split
    · exact ⟨db.memories, db.nextMemoryId, rfl⟩
    · exact ⟨_, _, rfl⟩
  · exact ⟨db.memories, db.nextMemoryId, rfl⟩

theorem migrateProjectSummary_shape (now : Nat) (db : DBState) (pr : ProjectRow) :
    ∃ m n, migrateProjectSummary now db pr
      = { db with memories := m, nextMemoryId := n } := by
  unfold migrateProjectSummary
  cases pr.contextSummary with
  | none => exact ⟨db.memories, db.nextMemoryId, rfl⟩
  | some cs =>
    dsimp only
    split
    · exact ⟨db.memories, db.nextMemoryId, rfl⟩
    · exact ⟨_, _, rfl⟩

theorem foldl_mps_shape (now : Nat) :
    ∀ (l : List ProjectRow) (db : DBState), ∃ m n,
      l.foldl (migrateProjectSummary now) db
        = { db with memories := m, nextMemoryId := n } := by
  intro l
  induction l with
  | nil => intro db; exact ⟨db.memories, db.nextMemoryId, rfl⟩
  | cons a as ih =>
    intro db
    rw [List.foldl_cons]
    obtain ⟨m1, n1, h1⟩ := migrateProjectSummary_shape now db a
    rw [h1]
    obtain ⟨m2, n2, h2⟩ := ih { db with memories := m1, nextMemoryId := n1 }
    rw [h2]
    exact ⟨m2, n2, rfl⟩

theorem migrateFromV1_shape (db : DBState) (now : Nat) :
    ∃ m n s g, migrateFromV1 db now
      = { db with memories := m, nextMemoryId := n, settings := s, globalCtx := g } := by
  unfold migrateFromV1
  split
  · exact ⟨db.memories, db.nextMemoryId, db.settings, db.globalCtx, rfl⟩
  · cases hg : db.globalCtx with
    | none => exact ⟨db.memories, db.nextMemoryId, db.settings, db.globalCtx, rfl⟩
    | some ctx =>
      dsimp only
      obtain ⟨m1, n1, g1, h1⟩ := migrateIdentity_shape now ctx.identity db
      rw [h1]
      obtain ⟨s2, h2⟩ := migratePrefs_shape ctx.preferences
        { db with memories := m1, nextMemoryId := n1, globalCtx := g1 }
      rw [h2]
      obtain ⟨m3, n3, h3⟩ := migrateGlobalSummary_shape now ctx.contextSummary
        { db with memories := m1, nextMemoryId := n1, globalCtx := g1, settings := s2 }
      rw [h3]
      split
      · exact ⟨_, _, _, _, rfl⟩
      · obtain ⟨m4, n4, h4⟩ := foldl_mps_shape now _
          { db with memories := m3, nextMemoryId := n3, globalCtx := g1, settings := s2 }
        rw [h4]
        exact ⟨_, _, _, _, rfl⟩

theorem addIdx_shape (db : DBState) (n : String) :
    ∃ i, addIdx db n = { db with indexes := i } := by
  unfold addIdx
  split
  · exact ⟨db.indexes, rfl⟩
  · exact ⟨_, rfl⟩

theorem dropIdx_shape (db : DBState) (n : String) :
    ∃ i, dropIdx db n = { db with indexes := i } :=
  ⟨_, rfl⟩

theorem foldl_addIdx_shape :
    ∀ (l : List String) (db : DBState), ∃ i,
      l.foldl addIdx db = { db with indexes := i } := by
  intro l
  induction l with
  | nil => intro db; exact ⟨db.indexes, rfl⟩
  | cons a as ih =>
    intro db
    rw [List.foldl_cons]
    obtain ⟨i1, h1⟩ := addIdx_shape db a
    rw [h1]
    obtain ⟨i2, h2⟩ := ih { db with indexes := i1 }
    rw [h2]
    exact ⟨i2, rfl⟩

theorem createStandardIndexes_shape (db : DBState) :
    ∃ i, createStandardIndexes db = { db with indexes := i } := by
  unfold createStandardIndexes
  dsimp only
  obtain ⟨i1, h1⟩ := foldl_addIdx_shape standardIndexNames db
  rw [h1]
  exact ⟨_, rfl⟩

theorem insertSetting_shape (db : DBState) (kv : String × String) :
    ∃ s, insertSetting db kv = { db with settings := s } := by
  unfold insertSetting
  split
  · exact ⟨db.settings, rfl⟩
  · exact ⟨_, rfl⟩

theorem seedSettings_shape (db : DBState) :
    ∃ s, seedSettings db = { db with settings := s } := by
  unfold seedSettings
  generalize seedSettingsDefaults = l
  induction l generalizing db with
  | nil => exact ⟨db.settings, rfl⟩
  | cons a as ih =>
    rw [List.foldl_cons]
    obtain ⟨s1, h1⟩ := insertSetting_shape db a
    rw [h1]
    obtain ⟨s2, h2⟩ := ih { db with settings := s1 }
    rw [h2]
    exact ⟨s2, rfl⟩

theorem insertSkillMemory_shape (now : Nat) (t c : String) (db : DBState) :
    ∃ m n, insertSkillMemory now t c db
      = { db with memories := m, nextMemoryId := n } := by
  unfold insertSkillMemory
  split
  · exact ⟨db.memories, db.nextMemoryId, rfl⟩
  · exact ⟨_, _, rfl⟩

theorem insertTag_shape (db : DBState) (n : String) :
    ∃ t nt, insertTag db n = { db with tags := t, nextTagId := nt } := by
  unfold insertTag
  split
  · exact ⟨db.tags, db.nextTagId, rfl⟩
  · exact ⟨_, _, rfl⟩

theorem foldl_insertTag_shape :
    ∀ (l : List String) (db : DBState), ∃ t nt,
      l.foldl insertTag db = { db with tags := t, nextTagId := nt } := by
  intro l
  induction l with
  | nil => intro db; exact ⟨db.tags, db.nextTagId, rfl⟩
  | cons a as ih =>
    intro db
    rw [List.foldl_cons]
    obtain ⟨t1, n1, h1⟩ := insertTag_shape db a
    rw [h1]
    obtain ⟨t2, n2, h2⟩ := ih { db with tags := t1, nextTagId := n1 }
    rw [h2]
    exact ⟨t2, n2, rfl⟩

theorem foldl_link_shape :
    ∀ (l : List (Nat × Nat)) (db : DBState), ∃ mt,
      l.foldl (fun d pr =>
        if d.memoryTags.contains pr then d
        else { d with memoryTags := d.memoryTags ++ [pr] }) db
      = { db with memoryTags := mt } := by
  intro l
  induction l with
  | nil => intro db; exact ⟨db.memoryTags, rfl⟩
  | cons a as ih =>
    intro db
    rw [List.foldl_cons]
    by_cases hc : db.memoryTags.contains a = true
    · rw [if_pos hc]
      exact ih db
    · rw [if_neg hc]
      obtain ⟨mt, h⟩ := ih { db with memoryTags := db.memoryTags ++ [a] }
      rw [h]
      exact ⟨mt, rfl⟩

theorem linkSkillTags_shape (db : DBState) (title : String) (names : List String) :
    ∃ mt, linkSkillTags db title names = { db with memoryTags := mt } := by
  unfold linkSkillTags
  exact foldl_link_shape _ db

theorem seedSkills_shape (db : DBState) (now : Nat) :
    ∃ m n t nt mt, seedSkills db now
      = { db with memories := m, nextMemoryId := n, tags := t, nextTagId := nt,
                  memoryTags := mt } := by
  unfold seedSkills
  dsimp only
  obtain ⟨m1, n1, h1⟩ := insertSkillMemory_shape now "Technical Project Descriptions"
    SKILL_TECHNICAL db
  rw [h1]
  obtain ⟨m2, n2, h2⟩ := insertSkillMemory_shape now "Human Project Descriptions"
    SKILL_HUMAN { db with memories := m1, nextMemoryId := n1 }
  rw [h2]
  obtain ⟨t3, nt3, h3⟩ := foldl_insertTag_shape coreTagNames
    { db with memories := m2, nextMemoryId := n2 }
  rw [h3]
  obtain ⟨mt4, h4⟩ := linkSkillTags_shape
    { db with memories := m2, nextMemoryId := n2, tags := t3, nextTagId := nt3 }
    "Technical Project Descriptions" techTagNames
  rw [h4]
  obtain ⟨mt5, h5⟩ := linkSkillTags_shape
    { db with memories := m2, nextMemoryId := n2, tags := t3, nextTagId := nt3,
              memoryTags := mt4 }
    "Human Project Descriptions" humanTagNames
  rw [h5]
  exact ⟨m2, n2, t3, nt3, mt5, rfl⟩

theorem SettingFixed_of_eq {d d' : DBState} {k v : String} (hs : d'.settings = d.settings)
    (h : SettingFixed d k v) : SettingFixed d' k v := by
  unfold SettingFixed at h ⊢
  rw [hs]
  exact h

theorem SettingFixed_set_self (db : DBState) (k v : String) :
    SettingFixed (setSettingInPlace db k v) k v := by
  unfold setSettingInPlace SettingFixed
  split
  · rename_i hany
    dsimp only
    constructor
    · intro kv hkv hk1
      simp only [List.mem_map] at hkv
      obtain ⟨kv0, hkv0, heq⟩ := hkv
      by_cases hq : (kv0.1 == k) = true
      · rw [if_pos hq] at heq
        rw [← heq]
      · rw [if_neg hq] at heq
        exact absurd (by rw [heq, hk1]; simp : (kv0.1 == k) = true) hq
    · simp only [List.any_eq_true] at hany ⊢
      obtain ⟨kv0, hkv0, hq⟩ := hany
      refine ⟨(k, v), List.mem_map.mpr ⟨kv0, hkv0, ?_⟩, by simp⟩
      rw [if_pos hq]
  · rename_i hany
    dsimp only
    constructor
    · intro kv hkv hk1
      rcases List.mem_append.mp hkv with h1 | h2
      · exact absurd (List.any_eq_true.mpr ⟨kv, h1, by simp [hk1]⟩) hany
      · simp only [List.mem_singleton] at h2
        rw [h2]
    · simp

theorem SettingFixed_set_other {db : DBState} {k v : String} (k' v' : String)
    (hne : k' ≠ k) (h : SettingFixed db k v) :
    SettingFixed (setSettingInPlace db k' v') k v := by
  obtain ⟨h1, h2⟩ := h
  unfold setSettingInPlace SettingFixed
  split
  · rename_i hany
    dsimp only
    constructor
    · intro kv hkv hk1
      simp only [List.mem_map] at hkv
      obtain ⟨kv0, hkv0, heq⟩ := hkv
      by_cases hq : (kv0.1 == k') = true
      · rw [if_pos hq] at heq
        exfalso
        apply hne
        rw [← heq] at hk1
        exact hk1
      · rw [if_neg hq] at heq
        rw [← heq] at hk1 ⊢
        exact h1 kv0 hkv0 hk1
    · simp only [List.any_eq_true] at h2 ⊢
      obtain ⟨kv0, hkv0, hq⟩ := h2
      refine ⟨kv0, List.mem_map.mpr ⟨kv0, hkv0, ?_⟩, hq⟩
      rw [if_neg]
      intro hcon
      apply hne
      have e1 : kv0.1 = k := by simpa using hq
      have e2 : kv0.1 = k' := by simpa using hcon
      rw [← e2, e1]
  · rename_i hany
    dsimp only
    constructor
    · intro kv hkv hk1
      rcases List.mem_append.mp hkv with ha | hb
      · exact h1 kv ha hk1
      · simp only [List.mem_singleton] at hb
        exfalso
        apply hne
        rw [hb] at hk1
        exact hk1
    · exact any_append_left _ _ _ h2

theorem SettingFixed_applyPref_other {db : DBState} {k v : String}
    (k' : String) (ov : Option String) (hne : k' ≠ k) (h : SettingFixed db k v) :
    SettingFixed (applyPrefSetting db k' ov) k v := by
  unfold applyPrefSetting
  cases ov with
  | none => exact h
  | some s => exact SettingFixed_set_other k' s hne h

theorem SettingFixed_insertSetting {db : DBState} {k v : String} (kv : String × String)
    (h : SettingFixed db k v) : SettingFixed (insertSetting db kv) k v := by
  obtain ⟨h1, h2⟩ := h
  unfold insertSetting SettingFixed
  split
  · exact ⟨h1, h2⟩
  · rename_i hany
    dsimp only
    constructor
    · intro x hx hx1
      rcases List.mem_append.mp hx with ha | hb
      · exact h1 x ha hx1
      · simp only [List.mem_singleton] at hb
        exfalso
        apply hany
        have hk : kv.1 = k := by rw [← hb]; exact hx1
        obtain ⟨y, hy, hq⟩ := List.any_eq_true.mp h2
        exact List.any_eq_true.mpr ⟨y, hy, by rw [hk]; exact hq⟩
    · exact any_append_left _ _ _ h2

theorem SettingFixed_seedSettings {db : DBState} {k v : String}
    (h : SettingFixed db k v) : SettingFixed (seedSettings db) k v := by
  unfold seedSettings
  exact foldl_pres_prop insertSetting (fun d => SettingFixed d k v)
    (fun b x hq => SettingFixed_insertSetting x hq) _ db h

theorem migratePrefs_fixed (db : DBState) (f : PrefsFields) :
    (∀ v, f.defaultPermission = some v →
      SettingFixed (migratePrefs (some (some f)) db) "default_memory_permission" v)
    ∧ (∀ v, f.autoCreateTasks = some v →
      SettingFixed (migratePrefs (some (some f)) db) "auto_create_tasks" v)
    ∧ (∀ v, f.searchDefaultLimit = some v →
      SettingFixed (migratePrefs (some (some f)) db) "search_default_limit" v) := by
  unfold migratePrefs
  dsimp only
  refine ⟨?_, ?_, ?_⟩
  · intro v hv
    refine SettingFixed_applyPref_other _ _ (by decide) ?_
    refine SettingFixed_applyPref_other _ _ (by decide) ?_
    rw [hv]
    exact SettingFixed_set_self db _ v
  · intro v hv
    refine SettingFixed_applyPref_other _ _ (by decide) ?_
    rw [hv]
    exact SettingFixed_set_self _ _ v
  · intro v hv
    rw [hv]
    exact SettingFixed_set_self _ _ v

theorem migrateGlobalSummary_post {now : Nat} {cs : Option String} {db : DBState}
    (h : (cs.getD "") ≠ "") :
    (migrateGlobalSummary now cs db).memories.any
      (fun m => m.type == "context" && m.projectId == none) = true := by
  unfold migrateGlobalSummary
  rw [if_pos h]
  split
  · assumption
  · dsimp only
    rw [List.any_append]
    simp

theorem migrateProjectSummary_post {now : Nat} {db : DBState} {pr : ProjectRow} {cs : String}
    (hcs : pr.contextSummary = some cs) :
    (migrateProjectSummary now db pr).memories.any
      (fun m => m.type == "context" && m.projectId == some pr.id) = true := by
  unfold migrateProjectSummary
  rw [hcs]
  dsimp only
  split
  · assumption
  · dsimp only
    rw [List.any_append]
    simp

theorem migrateProjectSummary_any_mono {now : Nat} {db : DBState} {pr : ProjectRow}
    {p : MemoryRow → Bool} (h : db.memories.any p = true) :
    (migrateProjectSummary now db pr).memories.any p = true := by
  unfold migrateProjectSummary
  cases pr.contextSummary with
  | none => exact h
  | some cs =>
    dsimp only
    split
    · exact h
    · dsimp only
      exact any_append_left _ _ _ h

theorem migrateIdentity_ctx {db : DBState} (now : Nat) (idn : Option String)
    {c : GlobalCtxRow} (hc : db.globalCtx = some c) :
    ∃ c', (migrateIdentity now idn db).globalCtx = some c'
      ∧ c'.identity = c.identity ∧ c'.preferences = c.preferences
      ∧ c'.contextSummary = c.contextSummary
      ∧ ((idn.getD "") ≠ "" → c'.activeIdentityId.isSome = true) := by
  unfold migrateIdentity
  by_cases hi : (idn.getD "") ≠ ""
  · rw [if_pos hi, hc]
    dsimp only
    cases hai : c.activeIdentityId with
    | some x =>
      exact ⟨c, hc, rfl, rfl, rfl, fun ht => by rw [hai]; rfl⟩
    | none =>
      exact ⟨_, rfl, rfl, rfl, rfl, fun ht => rfl⟩
  · rw [if_neg hi]
    exact ⟨c, hc, rfl, rfl, rfl, fun ht => absurd ht hi⟩

theorem MigrateNoop_transport {d d' : DBState}
    (hflag : d'.hasLegacyGlobalCols = d.hasLegacyGlobalCols)
    (hctx : d'.globalCtx = d.globalCtx)
    (hsetF : ∀ k v, SettingFixed d k v → SettingFixed d' k v)
    (hmem : ∀ p, d.memories.any p = true → d'.memories.any p = true)
    (hproj : d'.projects = d.projects)
    (hcol : d'.hasProjectSummaryCol = d.hasProjectSummaryCol)
    (h : MigrateNoop d) : MigrateNoop d' := by
  intro hl c hc
  rw [hflag] at hl
  rw [hctx] at hc
  obtain ⟨h1, h2, h3, h4⟩ := h hl c hc
  refine ⟨h1, ?_, ?_, ?_⟩
  · intro f hf
    obtain ⟨p1, p2, p3⟩ := h2 f hf
    exact ⟨fun v hv => hsetF _ _ (p1 v hv), fun v hv => hsetF _ _ (p2 v hv),
      fun v hv => hsetF _ _ (p3 v hv)⟩
  · intro ht
    exact hmem _ (h3 ht)
  · intro hcol' pr hpr cs hcs
    rw [hcol] at hcol'
    rw [hproj] at hpr
    exact hmem _ (h4 hcol' pr hpr cs hcs)

theorem migrateFromV1_post (db : DBState) (now : Nat) :
    MigrateNoop (migrateFromV1 db now) := by
  unfold migrateFromV1
  split
  · rename_i hleg
    intro hl c hc
    exact absurd hl (by simpa using hleg)
  · rename_i hleg
    cases hg : db.globalCtx with
    | none =>
      intro hl c hc
      rw [hg] at hc
      exact Option.noConfusion hc
    | some ctx =>
      dsimp only
      obtain ⟨c1, hctx1, hid1, hpref1, hsum1, hact1⟩ := migrateIdentity_ctx now ctx.identity hg
      set e1 := migrateIdentity now ctx.identity db with he1
      set e2 := migratePrefs ctx.preferences e1 with he2
      set e3 := migrateGlobalSummary now ctx.contextSummary e2 with he3
      obtain ⟨s2, hs2⟩ := migratePrefs_shape ctx.preferences e1
      obtain ⟨m3, n3, hs3⟩ := migrateGlobalSummary_shape now ctx.contextSummary e2
      have hctx2 : e2.globalCtx = e1.globalCtx := by rw [he2, hs2]
      have hctx3 : e3.globalCtx = e2.globalCtx := by rw [he3, hs3]
      have hset3 : e3.settings = e2.settings := by rw [he3, hs3]
      split
      · rename_i hcol
        intro hl c' hc'
        have hce : e3.globalCtx = some c1 := by rw [hctx3, hctx2]; exact hctx1
        rw [hce] at hc'
        injection hc' with hcc
        subst hcc
        refine ⟨?_, ?_, ?_, ?_⟩
        · intro ht
          rw [hid1] at ht
          exact hact1 ht
        · intro f hf
          rw [hpref1] at hf
          rw [hf] at he2
          have hfix := migratePrefs_fixed e1 f
          rw [← he2] at hfix
          exact ⟨fun v hv => SettingFixed_of_eq hset3 (hfix.1 v hv),
                 fun v hv => SettingFixed_of_eq hset3 (hfix.2.1 v hv),
                 fun v hv => SettingFixed_of_eq hset3 (hfix.2.2 v hv)⟩
        · intro ht
          rw [hsum1] at ht
          rw [he3]
          exact migrateGlobalSummary_post ht
        · intro hcol' pr hpr cs hcs
          exact absurd hcol' hcol
      · rename_i hcol
        obtain ⟨m4, n4, hs4⟩ := foldl_mps_shape now e3.projects e3
        intro hl c' hc'
        have hctxF : (e3.projects.foldl (migrateProjectSummary now) e3).globalCtx
            = some c1 := by
          rw [hs4]
          show e3.globalCtx = some c1
          rw [hctx3, hctx2]
          exact hctx1
        rw [hctxF] at hc'
        injection hc' with hcc
        subst hcc
        have hsetF : (e3.projects.foldl (migrateProjectSummary now) e3).settings
            = e2.settings := by
          rw [hs4]
          show e3.settings = e2.settings
          exact hset3
        have hmemF : ∀ p, e3.memories.any p = true →
            (e3.projects.foldl (migrateProjectSummary now) e3).memories.any p = true :=
          fun p hp => foldl_pres_prop _ (fun d => d.memories.any p = true)
            (fun b x h => migrateProjectSummary_any_mono h) _ e3 hp
        refine ⟨?_, ?_, ?_, ?_⟩
        · intro ht
          rw [hid1] at ht
          exact hact1 ht
        · intro f hf
          rw [hpref1] at hf
          rw [hf] at he2
          have hfix := migratePrefs_fixed e1 f
          rw [← he2] at hfix
          exact ⟨fun v hv => SettingFixed_of_eq hsetF (hfix.1 v hv),
                 fun v hv => SettingFixed_of_eq hsetF (hfix.2.1 v hv),
                 fun v hv => SettingFixed_of_eq hsetF (hfix.2.2 v hv)⟩
        · intro ht
          rw [hsum1] at ht
          apply hmemF
          rw [he3]
          exact migrateGlobalSummary_post ht
        · intro hcolF pr hpr cs hcs
          have hprE : pr ∈ e3.projects := by
            rw [hs4] at hpr
            exact hpr
          exact foldl_establish (migrateProjectSummary now)
            (fun pr d => ∀ cs, pr.contextSummary = some cs →
              d.memories.any
                (fun m => m.type == "context" && m.projectId == some pr.id) = true)
            (fun b x cs hcs => migrateProjectSummary_post hcs)
            (fun b x y hP cs hcs => migrateProjectSummary_any_mono (hP cs hcs))
            e3.projects e3 pr hprE cs hcs

theorem addIdx_mem_self (db : DBState) (n : String) : n ∈ (addIdx db n).indexes := by
  unfold addIdx
  split
  · rename_i h
    exact List.mem_of_elem_eq_true h
  · dsimp only
    simp

theorem addIdx_mem_mono {db : DBState} {m : String} (n : String) (h : m ∈ db.indexes) :
    m ∈ (addIdx db n).indexes := by
  unfold addIdx
  split
  · exact h
  · dsimp only
    exact List.mem_append_left _ h

theorem dropIdx_not_self (db : DBState) (n : String) : n ∉ (dropIdx db n).indexes := by
  unfold dropIdx
  dsimp only
  intro hmem
  have := List.of_mem_filter hmem
  simp at this

theorem dropIdx_mem_mono {db : DBState} {m : String} (n : String)
    (h : m ∈ db.indexes) (hne : m ≠ n) : m ∈ (dropIdx db n).indexes := by
  unfold dropIdx
  exact List.mem_filter.mpr ⟨h, by simp [hne]⟩

theorem dropIdx_not_mono {db : DBState} {m : String} (n : String)
    (h : m ∉ db.indexes) : m ∉ (dropIdx db n).indexes := by
  unfold dropIdx
  intro hmem
  exact h (List.mem_filter.mp hmem).1

theorem createStandardIndexes_post (db : DBState) :
    IndexesReady (createStandardIndexes db) := by
  unfold createStandardIndexes
  dsimp only
  have hkeys : ∀ x ∈ standardIndexNames,
      x ≠ "idx_memory_paths_segment" ∧ x ≠ "idx_memory_paths_memory" := by decide
  refine ⟨?_, ?_, ?_⟩
  · intro n hn
    have h1 : n ∈ (standardIndexNames.foldl addIdx db).indexes :=
      foldl_establish addIdx (fun n d => n ∈ d.indexes)
        (fun b x => addIdx_mem_self b x)
        (fun b x y hy => addIdx_mem_mono x hy)
        standardIndexNames db n hn
    exact dropIdx_mem_mono _ (dropIdx_mem_mono _ h1 (hkeys n hn).1) (hkeys n hn).2
  · exact dropIdx_not_mono _ (dropIdx_not_self _ "idx_memory_paths_segment")
  · exact dropIdx_not_self _ "idx_memory_paths_memory"

theorem insertSetting_post (db : DBState) (kv : String × String) :
    (insertSetting db kv).settings.any (fun s => s.1 == kv.1) = true := by
  unfold insertSetting
  split
  · assumption
  · dsimp only
    rw [List.any_append]
    simp

theorem insertSetting_any_mono {db : DBState} {k : String} (kv : String × String)
    (h : db.settings.any (fun s => s.1 == k) = true) :
    (insertSetting db kv).settings.any (fun s => s.1 == k) = true := by
  unfold insertSetting
  split
  · exact h
  · dsimp only
    exact any_append_left _ _ _ h

theorem seedSettings_post (db : DBState) : SettingsSeeded (seedSettings db) := by
  intro kv hkv
  unfold seedSettings
  exact foldl_establish insertSetting
    (fun kv d => d.settings.any (fun s => s.1 == kv.1) = true)
    (fun b x => insertSetting_post b x)
    (fun b x y hy => insertSetting_any_mono x hy)
    seedSettingsDefaults db kv hkv

theorem insertSkillMemory_post (now : Nat) (t c : String) (db : DBState) :
    (insertSkillMemory now t c db).memories.any
      (fun m => m.title == t && m.type == "skill") = true := by
  unfold insertSkillMemory
  split
  · assumption
  · dsimp only
    rw [List.any_append]
    simp

theorem insertSkillMemory_any_mono {db : DBState} {p : MemoryRow → Bool}
    (now : Nat) (t c : String) (h : db.memories.any p = true) :
    (insertSkillMemory now t c db).memories.any p = true := by
  unfold insertSkillMemory
  split
  · exact h
  · dsimp only
    exact any_append_left _ _ _ h

theorem insertTag_post (db : DBState) (n : String) :
    (insertTag db n).tags.any (fun t => t.2 == n) = true := by
  unfold insertTag
  split
  · assumption
  · dsimp only
    rw [List.any_append]
    simp

theorem insertTag_any_mono {db : DBState} {n' : String} (n : String)
    (h : db.tags.any (fun t => t.2 == n') = true) :
    (insertTag db n).tags.any (fun t => t.2 == n') = true := by
  unfold insertTag
  split
  · exact h
  · dsimp only
    exact any_append_left _ _ _ h

theorem foldl_link_mem_mono (l : List (Nat × Nat)) (db : DBState) {pr0 : Nat × Nat}
    (h : pr0 ∈ db.memoryTags) :
    pr0 ∈ (l.foldl (fun d pr => if d.memoryTags.contains pr then d
      else { d with memoryTags := d.memoryTags ++ [pr] }) db).memoryTags :=
  foldl_pres_prop _ (fun d => pr0 ∈ d.memoryTags)
    (fun b x hb => by
      dsimp only
      split
      · exact hb
      · exact List.mem_append_left _ hb) l db h

theorem foldl_link_establish (l : List (Nat × Nat)) (db : DBState) {pr : Nat × Nat}
    (h : pr ∈ l) :
    pr ∈ (l.foldl (fun d pr => if d.memoryTags.contains pr then d
      else { d with memoryTags := d.memoryTags ++ [pr] }) db).memoryTags :=
  foldl_establish _ (fun pr d => pr ∈ d.memoryTags)
    (fun b x => by
      dsimp only
      split
      · rename_i hc
        exact List.mem_of_elem_eq_true hc
      · exact List.mem_append_right _ (List.mem_singleton.mpr rfl))
    (fun b x y hy => by
      dsimp only
      split
      · exact hy
      · exact List.mem_append_left _ hy)
    l db pr h

theorem linkSkillTags_post (db : DBState) (title : String) (names : List String) :
    LinksSeeded (linkSkillTags db title names) title names := by
  intro m hm hmp t ht htp
  obtain ⟨mt, hsh⟩ := linkSkillTags_shape db title names
  have hm' : m ∈ db.memories := by rw [hsh] at hm; exact hm
  have ht' : t ∈ db.tags := by rw [hsh] at ht; exact ht
  unfold linkSkillTags
  dsimp only
  apply foldl_link_establish
  simp only [List.mem_flatMap, List.mem_filter, List.mem_map]
  exact ⟨m, ⟨hm', hmp⟩, t, ⟨ht', htp⟩, rfl⟩

theorem LinksSeeded_transport {d d' : DBState} {t : String} {ns : List String}
    (hmem : d'.memories = d.memories) (htag : d'.tags = d.tags)
    (hmt : ∀ pr : Nat × Nat, pr ∈ d.memoryTags → pr ∈ d'.memoryTags)
    (h : LinksSeeded d t ns) : LinksSeeded d' t ns := by
  intro m hm hmp tg htg htp
  rw [hmem] at hm
  rw [htag] at htg
  exact hmt _ (h m hm hmp tg htg htp)

theorem seedSkills_post (db : DBState) (now : Nat) : SkillsSeeded (seedSkills db now) := by
  unfold seedSkills
  dsimp only
  set a1 := insertSkillMemory now "Technical Project Descriptions" SKILL_TECHNICAL db with h1
  set a2 := insertSkillMemory now "Human Project Descriptions" SKILL_HUMAN a1 with h2
  set a3 := coreTagNames.foldl insertTag a2 with h3
  set a4 := linkSkillTags a3 "Technical Project Descriptions" techTagNames with h4
  obtain ⟨t3, nt3, hs3⟩ := foldl_insertTag_shape coreTagNames a2
  obtain ⟨mt4, hs4⟩ := linkSkillTags_shape a3 "Technical Project Descriptions" techTagNames
  obtain ⟨mt5, hs5⟩ := linkSkillTags_shape a4 "Human Project Descriptions" humanTagNames
  have hmem3 : a3.memories = a2.memories := by rw [h3, hs3]
  have hmem4 : a4.memories = a3.memories := by rw [h4, hs4]
  have hmem5 : (linkSkillTags a4 "Human Project Descriptions" humanTagNames).memories
      = a4.memories := by rw [hs5]
  have htag4 : a4.tags = a3.tags := by rw [h4, hs4]
  have htag5 : (linkSkillTags a4 "Human Project Descriptions" humanTagNames).tags
      = a4.tags := by rw [hs5]
  unfold SkillsSeeded
  refine ⟨?_, ?_, ?_, ?_, ?_⟩
  · rw [hmem5, hmem4, hmem3, h2]
    exact insertSkillMemory_any_mono now _ _ (by
      rw [h1]
      exact insertSkillMemory_post now _ _ db)
  · rw [hmem5, hmem4, hmem3, h2]
    exact insertSkillMemory_post now _ _ a1
  · intro n hn
    rw [htag5, htag4, h3]
    exact foldl_establish insertTag (fun n d => d.tags.any (fun t => t.2 == n) = true)
      (fun b x => insertTag_post b x)
      (fun b x y hy => insertTag_any_mono x hy)
      coreTagNames a2 n hn
  · refine LinksSeeded_transport hmem5 htag5 ?_ ?_
    · intro pr hpr
      unfold linkSkillTags
      dsimp only
      exact foldl_link_mem_mono _ a4 hpr
    · rw [h4]
      exact linkSkillTags_post a3 _ _
  · exact linkSkillTags_post a4 _ _

theorem seedSkills_any_mono {db : DBState} {p : MemoryRow → Bool} (now : Nat)
    (h : db.memories.any p = true) : (seedSkills db now).memories.any p = true := by
  unfold seedSkills
  dsimp only
  set a1 := insertSkillMemory now "Technical Project Descriptions" SKILL_TECHNICAL db with h1
  set a2 := insertSkillMemory now "Human Project Descriptions" SKILL_HUMAN a1 with h2
  set a3 := coreTagNames.foldl insertTag a2 with h3
  set a4 := linkSkillTags a3 "Technical Project Descriptions" techTagNames with h4
  obtain ⟨t3, nt3, hs3⟩ := foldl_insertTag_shape coreTagNames a2
  obtain ⟨mt4, hs4⟩ := linkSkillTags_shape a3 "Technical Project Descriptions" techTagNames
  obtain ⟨mt5, hs5⟩ := linkSkillTags_shape a4 "Human Project Descriptions" humanTagNames
  have hmem3 : a3.memories = a2.memories := by rw [h3, hs3]
  have hmem4 : a4.memories = a3.memories := by rw [h4, hs4]
  have hmem5 : (linkSkillTags a4 "Human Project Descriptions" humanTagNames).memories
      = a4.memories := by rw [hs5]
  rw [hmem5, hmem4, hmem3, h2]
  exact insertSkillMemory_any_mono now _ _ (by
    rw [h1]
    exact insertSkillMemory_any_mono now _ _ h)

theorem createProjectsTable_shape (db : DBState) :
    ∃ b pj pc, createProjectsTable db
      = { db with hasProjectsTable := b, projects := pj, hasProjectSummaryCol := pc } := by
  unfold createProjectsTable
  split
  · exact ⟨db.hasProjectsTable, db.projects, db.hasProjectSummaryCol, rfl⟩
  · exact ⟨_, _, _, rfl⟩

theorem createMemoriesTable_shape (db : DBState) :
    ∃ b m n, createMemoriesTable db
      = { db with hasMemoriesTable := b, memories := m, nextMemoryId := n } := by
  unfold createMemoriesTable
  split
  · exact ⟨db.hasMemoriesTable, db.memories, db.nextMemoryId, rfl⟩
  · exact ⟨_, _, _, rfl⟩

theorem createGlobalCtxTable_shape (db : DBState) :
    ∃ b g lg ai, createGlobalCtxTable db
      = { db with hasGlobalCtxTable := b, globalCtx := g,
                  hasLegacyGlobalCols := lg, hasActiveIdentityCol := ai } := by
  unfold createGlobalCtxTable
  split
  · exact ⟨db.hasGlobalCtxTable, db.globalCtx, db.hasLegacyGlobalCols,
      db.hasActiveIdentityCol, rfl⟩
  · exact ⟨_, _, _, _, rfl⟩

theorem createTasksTable_shape (db : DBState) :
    ∃ b t n pc, createTasksTable db
      = { db with hasTasksTable := b, tasks := t, nextTaskId := n,
                  hasTasksParentCol := pc } := by
  unfold createTasksTable
  split
  · exact ⟨db.hasTasksTable, db.tasks, db.nextTaskId, db.hasTasksParentCol, rfl⟩
  · exact ⟨_, _, _, _, rfl⟩

theorem createTagsTable_shape (db : DBState) :
    ∃ b t n, createTagsTable db
      = { db with hasTagsTable := b, tags := t, nextTagId := n } := by
  unfold createTagsTable
  split
  · exact ⟨db.hasTagsTable, db.tags, db.nextTagId, rfl⟩
  · exact ⟨_, _, _, rfl⟩

theorem createMemoryTagsTable_shape (db : DBState) :
    ∃ b mt, createMemoryTagsTable db
      = { db with hasMemoryTagsTable := b, memoryTags := mt } := by
  unfold createMemoryTagsTable
  split
  · exact ⟨db.hasMemoryTagsTable, db.memoryTags, rfl⟩
  · exact ⟨_, _, rfl⟩

theorem createSettingsTable_shape (db : DBState) :
    ∃ b s, createSettingsTable db
      = { db with hasSettingsTable := b, settings := s } := by
  unfold createSettingsTable
  split
  · exact ⟨db.hasSettingsTable, db.settings, rfl⟩
  · exact ⟨_, _, rfl⟩

theorem createMemoryRelationsTable_shape (db : DBState) :
    ∃ b mr, createMemoryRelationsTable db
      = { db with hasMemoryRelationsTable := b, memoryRelations := mr } := by
  unfold createMemoryRelationsTable
  split
  · exact ⟨db.hasMemoryRelationsTable, db.memoryRelations, rfl⟩
  · exact ⟨_, _, rfl⟩

theorem alterAddActiveIdentityCol_shape (db : DBState) :
    ∃ g b, alterAddActiveIdentityCol db
      = { db with globalCtx := g, hasActiveIdentityCol := b } := by
  unfold alterAddActiveIdentityCol
  split
  · exact ⟨db.globalCtx, db.hasActiveIdentityCol, rfl⟩
  · exact ⟨_, _, rfl⟩

theorem alterAddTasksParentCol_shape (db : DBState) :
    ∃ t b, alterAddTasksParentCol db
      = { db with tasks := t, hasTasksParentCol := b } := by
  unfold alterAddTasksParentCol
  split
  · exact ⟨db.tasks, db.hasTasksParentCol, rfl⟩
  · exact ⟨_, _, rfl⟩

theorem migrateFromV1_isSome {db : DBState} (now : Nat)
    (h : db.globalCtx.isSome = true) :
    (migrateFromV1 db now).globalCtx.isSome = true := by
  unfold migrateFromV1
  split
  · exact h
  · cases hg : db.globalCtx with
    | none => dsimp only; exact h
    | some ctx =>
      dsimp only
      obtain ⟨c1, hctx1, h1, h2, h3, h4⟩ := migrateIdentity_ctx now ctx.identity hg
      obtain ⟨s2, hs2⟩ := migratePrefs_shape ctx.preferences
        (migrateIdentity now ctx.identity db)
      obtain ⟨m3, n3, hs3⟩ := migrateGlobalSummary_shape now ctx.contextSummary
        (migratePrefs ctx.preferences (migrateIdentity now ctx.identity db))
      split
      · rw [hs3, hs2]
        show (migrateIdentity now ctx.identity db).globalCtx.isSome = true
        rw [hctx1]
        rfl
      · obtain ⟨m4, n4, hs4⟩ := foldl_mps_shape now _
          (migrateGlobalSummary now ctx.contextSummary
            (migratePrefs ctx.preferences (migrateIdentity now ctx.identity db)))
        rw [hs4, hs3, hs2]
        show (migrateIdentity now ctx.identity db).globalCtx.isSome = true
        rw [hctx1]
        rfl

theorem initializeDatabase_initialized (db : DBState) (now : Nat) :
    Initialized (initializeDatabase db now) := by
  unfold initializeDatabase
  dsimp only
  set d1 := createProjectsTable db with hd1
  set d2 := createMemoriesTable d1 with hd2
  set d3 := createGlobalCtxTable d2 with hd3
  set d4 := insertGlobalCtxRow d3 now with hd4
  set d5 := createTasksTable d4 with hd5
  set d6 := createTagsTable d5 with hd6
  set d7 := createMemoryTagsTable d6 with hd7
  set d8 := createSettingsTable d7 with hd8
  set d9 := createMemoryRelationsTable d8 with hd9
  set d10 := alterAddActiveIdentityCol d9 with hd10
  set d11 := alterAddTasksParentCol d10 with hd11
  set d12 := migrateFromV1 d11 now with hd12
  set d13 := dropLegacyTables d12 with hd13
  set d14 := createStandardIndexes d13 with hd14
  set d15 := seedSettings d14 with hd15
  obtain ⟨b1, pj1, pc1, hs1⟩ := createProjectsTable_shape db
  rw [← hd1] at hs1
  obtain ⟨b2, m2, n2, hs2⟩ := createMemoriesTable_shape d1
  rw [← hd2] at hs2
  obtain ⟨b3, g3, lg3, ai3, hs3⟩ := createGlobalCtxTable_shape d2
  rw [← hd3] at hs3
  obtain ⟨g4, hs4⟩ := insertGlobalCtxRow_shape d3 now
  rw [← hd4] at hs4
  obtain ⟨b5, t5, n5, pc5, hs5⟩ := createTasksTable_shape d4
  rw [← hd5] at hs5
  obtain ⟨b6, t6, n6, hs6⟩ := createTagsTable_shape d5
  rw [← hd6] at hs6
  obtain ⟨b7, mt7, hs7⟩ := createMemoryTagsTable_shape d6
  rw [← hd7] at hs7
  obtain ⟨b8, s8, hs8⟩ := createSettingsTable_shape d7
  rw [← hd8] at hs8
  obtain ⟨b9, mr9, hs9⟩ := createMemoryRelationsTable_shape d8
  rw [← hd9] at hs9
  obtain ⟨g10, b10, hs10⟩ := alterAddActiveIdentityCol_shape d9
  rw [← hd10] at hs10
  obtain ⟨t11, b11, hs11⟩ := alterAddTasksParentCol_shape d10
  rw [← hd11] at hs11
  obtain ⟨m12, n12, s12, g12, hs12⟩ := migrateFromV1_shape d11 now
  rw [← hd12] at hs12
  obtain ⟨i14, hs14⟩ := createStandardIndexes_shape d13
  rw [← hd14] at hs14
  obtain ⟨s15, hs15⟩ := seedSettings_shape d14
  rw [← hd15] at hs15
  obtain ⟨m16, n16, t16, nt16, mt16, hs16⟩ := seedSkills_shape d15 now
  have hT1 : (seedSkills d15 now).hasProjectsTable = true := by
    rw [hs16, hs15, hs14, hd13, hs12, hs11, hs10, hs9, hs8, hs7, hs6, hs5, hs4,
      hs3, hs2, hd1]
    exact createProjectsTable_self db
  have hT2 : (seedSkills d15 now).hasMemoriesTable = true := by
    rw [hs16, hs15, hs14, hd13, hs12, hs11, hs10, hs9, hs8, hs7, hs6, hs5, hs4,
      hs3, hd2]
    exact createMemoriesTable_self d1
  have hT3 : (seedSkills d15 now).hasGlobalCtxTable = true := by
    rw [hs16, hs15, hs14, hd13, hs12, hs11, hs10, hs9, hs8, hs7, hs6, hs5, hs4, hd3]
    exact createGlobalCtxTable_self d2
  have hT4 : (seedSkills d15 now).hasTasksTable = true := by
    rw [hs16, hs15, hs14, hd13, hs12, hs11, hs10, hs9, hs8, hs7, hs6, hd5]
    exact createTasksTable_self d4
  have hT5 : (seedSkills d15 now).hasTagsTable = true := by
    rw [hs16, hs15, hs14, hd13, hs12, hs11, hs10, hs9, hs8, hs7, hd6]
    exact createTagsTable_self d5
  have hT6 : (seedSkills d15 now).hasMemoryTagsTable = true := by
    rw [hs16, hs15, hs14, hd13, hs12, hs11, hs10, hs9, hs8, hd7]
    exact createMemoryTagsTable_self d6
  have hT7 : (seedSkills d15 now).hasSettingsTable = true := by
    rw [hs16, hs15, hs14, hd13, hs12, hs11, hs10, hs9, hd8]
    exact createSettingsTable_self d7
  have hT8 : (seedSkills d15 now).hasMemoryRelationsTable = true := by
    rw [hs16, hs15, hs14, hd13, hs12, hs11, hs10, hd9]
    exact createMemoryRelationsTable_self d8
  have hB : (seedSkills d15 now).globalCtx.isSome = true := by
    rw [hs16, hs15, hs14, hd13]
    show d12.globalCtx.isSome = true
    rw [hd12]
    apply migrateFromV1_isSome
    rw [hs11]
    show d10.globalCtx.isSome = true
    rw [hd10, (alterAddActiveIdentityCol_frame d9).2.2.2.2.2.2.2.2]
    rw [hs9, hs8, hs7, hs6, hs5]
    show d4.globalCtx.isSome = true
    rw [hd4]
    exact insertGlobalCtxRow_post d3 now
  have hC1 : (seedSkills d15 now).hasActiveIdentityCol = true := by
    rw [hs16, hs15, hs14, hd13, hs12, hs11, hd10]
    exact alterAddActiveIdentityCol_self d9
  have hC2 : (seedSkills d15 now).hasTasksParentCol = true := by
    rw [hs16, hs15, hs14, hd13, hs12, hd11]
    exact alterAddTasksParentCol_self d10
  have hD : LegacyDropped (seedSkills d15 now) := by
    unfold LegacyDropped
    rw [hs16, hs15, hs14, hd13]
    unfold dropLegacyTables
    exact ⟨rfl, rfl, rfl⟩
  have hM12 : MigrateNoop d12 := by
    rw [hd12]
    exact migrateFromV1_post d11 now
  have hM : MigrateNoop (seedSkills d15 now) := by
    refine MigrateNoop_transport ?_ ?_ ?_ ?_ ?_ ?_ hM12
    · rw [hs16, hs15, hs14, hd13]
      rfl
    · rw [hs16, hs15, hs14, hd13]
      rfl
    · intro k v h
      have h13 : SettingFixed d13 k v := SettingFixed_of_eq (by rw [hd13]; rfl) h
      have h14 : SettingFixed d14 k v := SettingFixed_of_eq (by rw [hs14]) h13
      have h15 : SettingFixed d15 k v := by
        rw [hd15]
        exact SettingFixed_seedSettings h14
      exact SettingFixed_of_eq (by rw [hs16]) h15
    · intro p h
      have h15 : d15.memories.any p = true := by
        rw [hs15, hs14, hd13]
        exact h
      exact seedSkills_any_mono now h15
    · rw [hs16, hs15, hs14, hd13]
      rfl
    · rw [hs16, hs15, hs14, hd13]
      rfl
  have hI14 : IndexesReady d14 := by
    rw [hd14]
    exact createStandardIndexes_post d13
  have hIeq : (seedSkills d15 now).indexes = d14.indexes := by
    rw [hs16, hs15]
  have hI : IndexesReady (seedSkills d15 now) := by
    unfold IndexesReady at hI14 ⊢
    rw [hIeq]
    exact hI14
  have hS15 : SettingsSeeded d15 := by
    rw [hd15]
    exact seedSettings_post d14
  have hSeq : (seedSkills d15 now).settings = d15.settings := by
    rw [hs16]
  have hS : SettingsSeeded (seedSkills d15 now) := by
    unfold SettingsSeeded at hS15 ⊢
    rw [hSeq]
    exact hS15
  have hK : SkillsSeeded (seedSkills d15 now) := seedSkills_post d15 now
  exact ⟨⟨hT1, hT2, hT3, hT4, hT5, hT6, hT7, hT8⟩, hB, ⟨hC1, hC2⟩, hD, hM, hI, hS, hK⟩

/-- C10: running the schema initialization (`initializeDatabase`, including the
v1 legacy migration and the settings/skills seeding) twice in succession yields
a store state identical to running it once — the second run creates no rows,
modifies no rows and removes none, for every starting store and any pair of
clock readings. -/
theorem C10_init_idempotent (db : DBState) (now1 now2 : Nat) :
    initializeDatabase (initializeDatabase db now1) now2
      = initializeDatabase db now1 :=
  initializeDatabase_noop (initializeDatabase_initialized db now1)

end Minni
